import Mathlib

/-!
# NovaRPC: frame codec, framer, balancer, server pipeline and client

A shallow embedding of `codec/codec.go`, `transport/transport.go`,
`selector/round_robin_balancer.go`, `transport/server_transport.go`,
`service.go`, `server.go` and `client/client.go`, with the properties of the
wire format, of `ReadFrame`, of the round-robin picker, of the response
envelope, of the dispatcher, of the connection worker, of the accept loop and
of `Invoke`.

Conventions: a byte is a `Fin 256`; Go slices of bytes are lists; Go `int`,
`uint32` values are naturals or integers with the wrap-around written out where
a conversion can truncate; a Go `(value, error)` pair is a pair of options.
-/

namespace NovaRPC

/-- One octet (`uint8` / `byte`). -/
abbrev Byte := Fin 256

/-- Conversion of a number to `uint8` (keeps the low eight bits). -/
def byteOf (v : Nat) : Byte := ⟨v % 256, Nat.mod_lt _ (by decide)⟩

namespace codes

/-- Modelled from the spec: package `codes` is not among the sources; only the
names of its error codes are used here (the spec leaves their numeric values
open but distinct). `OK` is the code `0`; `other n` stands for any further
`u32` value that a caller passes to `codes.New`. -/
inductive Code where
  | OK
  | ClientMsgErrorCode
  | ServerInternalErrorCode
  | other (n : Nat)
  deriving DecidableEq

end codes

/-- Go `error` values that the modelled code can produce or pass through:
`io.EOF`, `io.ErrUnexpectedEOF`, a framework error built by
`codes.NewFrameworkError(code, msg)`, any other error of the connection
(reset, timeout, ...), identified by a tag, an error built by
`codes.New(code, msg)`, an error built by `errors.New(msg)` or `fmt.Errorf`,
and `context.Canceled`. -/
inductive Error where
  | EOF
  | ErrUnexpectedEOF
  | framework (code : codes.Code) (msg : String)
  | conn (tag : Nat)
  | coded (code : codes.Code) (msg : String)
  | plain (msg : String)
  | Canceled
  deriving DecidableEq

/-- How a call ends: it returns a value, or it panics (index or slice bound out
of range). -/
inductive Outcome (α : Type) where
  | ret (v : α)
  | panic
  deriving DecidableEq

namespace codec

/-- Source `const FrameHeadLen = 15`. -/
def FrameHeadLen : Nat := 15
/-- Source `const Magic = 0x11`. -/
def Magic : Nat := 0x11
/-- Source `const Version = 0`. -/
def Version : Nat := 0

/-- Source `type FrameHeader struct`: the value of each field (`uint8`, `uint16`,
`uint32`) as a natural number. -/
structure FrameHeader where
  Magic : Nat
  Version : Nat
  MsgType : Nat
  ReqType : Nat
  CompressType : Nat
  StreamID : Nat
  Length : Nat
  Reserved : Nat
  deriving DecidableEq

/-- Big-endian bytes of a `uint8`. -/
def beU8 (v : Nat) : List Byte := [byteOf v]
/-- Big-endian bytes of a `uint16`. -/
def beU16 (v : Nat) : List Byte := [byteOf (v / 2 ^ 8), byteOf v]
/-- Big-endian bytes of a `uint32`. -/
def beU32 (v : Nat) : List Byte :=
  [byteOf (v / 2 ^ 24), byteOf (v / 2 ^ 16), byteOf (v / 2 ^ 8), byteOf v]

/-- Go `binary.BigEndian.Uint32(b)` on the four bytes `b`. -/
def beUint32 (b : List Byte) : Nat :=
  (b.getD 0 0).val * 2 ^ 24 + (b.getD 1 0).val * 2 ^ 16 + (b.getD 2 0).val * 2 ^ 8
    + (b.getD 3 0).val

/-- Go `binary.Write(buffer, binary.BigEndian, v)` on a `bytes.Buffer`, given the
big-endian bytes of the fixed-size value `v`: the bytes are appended; writing to
a `bytes.Buffer` reports no error. -/
def binaryWrite (buffer : List Byte) (bs : List Byte) : Except Error (List Byte) :=
  .ok (buffer ++ bs)

/-- Source `func (c *defaultCodec) Encode(data []byte) ([]byte, error)`. -/
def Encode (data : List Byte) : Except Error (List Byte) := do
  let buffer : List Byte := []
  let frame : FrameHeader :=
    { Magic := Magic, Version := Version, MsgType := 0x0, ReqType := 0x0,
      CompressType := 0x0, StreamID := 0, Length := data.length % 2 ^ 32, Reserved := 0 }
  let buffer ← binaryWrite buffer (beU8 frame.Magic)
  let buffer ← binaryWrite buffer (beU8 frame.Version)
  let buffer ← binaryWrite buffer (beU8 frame.MsgType)
  let buffer ← binaryWrite buffer (beU8 frame.ReqType)
  let buffer ← binaryWrite buffer (beU8 frame.CompressType)
  let buffer ← binaryWrite buffer (beU16 frame.StreamID)
  let buffer ← binaryWrite buffer (beU32 frame.Length)
  let buffer ← binaryWrite buffer (beU32 frame.Reserved)
  let buffer ← binaryWrite buffer data
  return buffer

/-- Source `func (c *defaultCodec) Decode(requestBuf []byte) ([]byte, error)`:
`requestBuf[FrameHeadLen:]`; the slice expression panics when the buffer is
shorter than the header. -/
def Decode (requestBuf : List Byte) : Outcome (Except Error (List Byte)) :=
  if requestBuf.length < FrameHeadLen then .panic
  else .ret (.ok (requestBuf.drop FrameHeadLen))

end codec

namespace codec

/-- The 15 header bytes of the wire format for a payload of `n` bytes, as the
format table gives them: magic, version, three zero flag bytes, a zero stream
id, the length as a big-endian `u32`, and four reserved zero bytes. -/
def headerBytes (n : Nat) : List Byte :=
  [0x11, 0x00, 0x00, 0x00, 0x00, 0x00, 0x00,
    byteOf (n / 2 ^ 24), byteOf (n / 2 ^ 16), byteOf (n / 2 ^ 8), byteOf n,
    0x00, 0x00, 0x00, 0x00]

end codec

namespace transport

/-- Source `const DefaultPayloadLength = 1024`. -/
def DefaultPayloadLength : Nat := 1024
/-- Source `const MaxPayloadLength = 4 * 1024 * 1024`. -/
def MaxPayloadLength : Nat := 4 * 1024 * 1024

/-- The read side of a `net.Conn`: the bytes that will still arrive, and the
error `Read` reports once they are used up (`io.EOF` when the peer closed the
stream, another error for a reset or a timeout). -/
structure Conn where
  pending : List Byte
  closeErr : Error
  deriving DecidableEq

/-- Go `io.ReadFull(conn, buf)`: returns the connection after the read, the
contents of `buf` after the read, the count `n` and the error. It reads until
`buf` is full; an empty `buf` reads nothing; when the stream gives out first, the
error is the stream's own, with `io.EOF` turned into `io.ErrUnexpectedEOF` if
some bytes were read. -/
def ReadFull (conn : Conn) (buf : List Byte) : Conn × List Byte × Nat × Option Error :=
  if buf.length = 0 then (conn, buf, 0, none)
  else if buf.length ≤ conn.pending.length then
    ({ conn with pending := conn.pending.drop buf.length }, conn.pending.take buf.length,
      buf.length, none)
  else
    ({ conn with pending := [] }, conn.pending ++ buf.drop conn.pending.length,
      conn.pending.length,
      some (if 0 < conn.pending.length ∧ conn.closeErr = Error.EOF then Error.ErrUnexpectedEOF
        else conn.closeErr))

/-- Source `type framer struct`: the buffer (its length is also its capacity, as
`make([]byte, n)` allocates it) and the doubling counter. -/
structure framer where
  buffer : List Byte
  counter : Int
  deriving DecidableEq

/-- Source `func NewFramer() Framer`. -/
def NewFramer : framer :=
  { buffer := List.replicate DefaultPayloadLength 0, counter := 0 }

/-- The growth loop of `ReadFrame`:
`for uint32(len(f.buffer)) < length && f.counter <= 12 { f.buffer = make([]byte, len(f.buffer)*2); f.counter++ }`. -/
def grow (f : framer) (length : Nat) : framer :=
  if f.buffer.length % 2 ^ 32 < length ∧ f.counter ≤ 12 then
    grow { buffer := List.replicate (f.buffer.length * 2) 0, counter := f.counter + 1 } length
  else f
termination_by (13 - f.counter).toNat
decreasing_by
  simp_wf
  omega

/-- Source `func (f *framer) ReadFrame(conn net.Conn) ([]byte, error)`: the framer and
the connection after the call, and the returned pair (or a panic of the slice
expression `f.buffer[:length]`). -/
def ReadFrame (f : framer) (conn : Conn) :
    framer × Conn × Outcome (Option (List Byte) × Option Error) :=
  match ReadFull conn (List.replicate codec.FrameHeadLen 0) with
  | (conn1, frameHeader, num, err) =>
    if num ≠ codec.FrameHeadLen ∨ err ≠ none then (f, conn1, .ret (none, err))
    else if (frameHeader.getD 0 0).val ≠ codec.Magic then
      (f, conn1, .ret (none, some (.framework .ClientMsgErrorCode "invalid magic...")))
    else
      let length := codec.beUint32 ((frameHeader.drop 7).take 4)
      if length > MaxPayloadLength then
        (f, conn1, .ret (none, some (.framework .ClientMsgErrorCode "payload too large...")))
      else
        let f1 := grow f length
        if length > f1.buffer.length then (f1, conn1, .panic)
        else
          match ReadFull conn1 (f1.buffer.take length) with
          | (conn2, body, num, err) =>
            let f2 : framer := { f1 with buffer := body ++ f1.buffer.drop length }
            if num % 2 ^ 32 ≠ length ∨ err ≠ none then (f2, conn2, .ret (none, err))
            else (f2, conn2, .ret (some (frameHeader ++ f2.buffer.take length), none))

/-- The framer states that exist at run time: the one `NewFramer` builds, and
every state a `ReadFrame` call leaves behind. -/
inductive Reachable : framer → Prop where
  | new : Reachable NewFramer
  | step (f : framer) (conn : Conn) : Reachable f → Reachable (ReadFrame f conn).1

/-- The framer invariant: the buffer holds `1024 * 2 ^ counter` bytes and the
counter is between 0 and 12. -/
def Inv (f : framer) : Prop :=
  ∃ c : Nat, c ≤ 12 ∧ f.counter = (c : Int) ∧ f.buffer.length = 1024 * 2 ^ c

/-- A stream starts with a well-formed header announcing `L` payload bytes. -/
def HeaderAt (pending : List Byte) (L : Nat) : Prop :=
  15 ≤ pending.length ∧ (pending.getD 0 0).val = 0x11 ∧
    codec.beUint32 ((pending.drop 7).take 4) = L

instance (pending : List Byte) (L : Nat) : Decidable (HeaderAt pending L) :=
  inferInstanceAs (Decidable (15 ≤ pending.length ∧ (pending.getD 0 0).val = 0x11 ∧
    codec.beUint32 ((pending.drop 7).take 4) = L))

end transport

namespace selector

/-- Go `time.Time` as a count of nanoseconds. -/
abbrev Time := Int
/-- Go `time.Duration` (`int64` nanoseconds). -/
abbrev Duration := Int

/-- Largest `time.Duration`. -/
def maxDuration : Duration := 2 ^ 63 - 1
/-- Smallest `time.Duration`. -/
def minDuration : Duration := -(2 ^ 63)

/-- Go `t.Sub(u)`: the difference, saturated to the range of `time.Duration`. -/
def Sub (t u : Time) : Duration :=
  if t - u > maxDuration then maxDuration
  else if t - u < minDuration then minDuration
  else t - u

/-- Source `type roundRobinPicker struct`. The two `int` fields are only ever written
with `len(nodes)`, `0` and `+= 1`, so they are naturals. -/
structure roundRobinPicker where
  length : Nat
  lastUpdateTime : Time
  duration : Duration
  lastIndex : Nat
  deriving DecidableEq

/-- The index expression `nodes[i]`: the element, or a panic out of range. -/
def index {Node : Type} (nodes : List Node) (i : Nat) : Outcome (Option Node) :=
  match nodes[i]? with
  | some x => .ret (some x)
  | none => .panic

/-- Source `func (rp *roundRobinPicker) pick(nodes []*Node) *Node`, with the two
readings of `time.Now()` as `now` (in the test) and `now2` (in the reset). The
type of nodes is a parameter; `nil` is `none`. -/
def pick {Node : Type} (rp : roundRobinPicker) (nodes : List Node) (now now2 : Time) :
    roundRobinPicker × Outcome (Option Node) :=
  if nodes.length = 0 then (rp, .ret none)
  else
    let rp1 : roundRobinPicker :=
      if Sub now rp.lastUpdateTime > rp.duration ∨ nodes.length ≠ rp.length then
        { rp with length := nodes.length, lastUpdateTime := now2, lastIndex := 0 }
      else rp
    if rp1.lastIndex = nodes.length - 1 then
      ({ rp1 with lastIndex := 0 }, index nodes 0)
    else
      let rp2 : roundRobinPicker := { rp1 with lastIndex := rp1.lastIndex + 1 }
      (rp2, index nodes rp2.lastIndex)

/-- Source `type roundRobinBalancer struct`; the `sync.Map` of pickers is a finite map
from service names to pickers. -/
structure roundRobinBalancer where
  pickers : String → Option roundRobinPicker
  duration : Duration

/-- Source `func (r *roundRobinBalancer) Balance(serviceName string, nodes []*Node) *Node`.
`t0` is the reading of `time.Now()` in the picker literal. A stored picker is
shared by pointer, so what `pick` did to it stays even when `pick` panics; a new
picker is stored only when `pick` returns. -/
def Balance {Node : Type} (r : roundRobinBalancer) (serviceName : String) (nodes : List Node)
    (t0 now now2 : Time) : roundRobinBalancer × Outcome (Option Node) :=
  match r.pickers serviceName with
  | none =>
    let picker : roundRobinPicker :=
      { lastUpdateTime := t0, duration := r.duration, length := nodes.length, lastIndex := 0 }
    match pick picker nodes now now2 with
    | (picker1, .ret node) =>
      ({ r with pickers := fun k => if k = serviceName then some picker1 else r.pickers k },
        .ret node)
    | (_, .panic) => (r, .panic)
  | some picker =>
    match pick picker nodes now now2 with
    | (picker1, res) =>
      ({ r with pickers := fun k => if k = serviceName then some picker1 else r.pickers k }, res)

/-- Source `func newRoundRobinBalancer() *roundRobinBalancer`: no pickers, a refresh
window of three minutes. -/
def newRoundRobinBalancer : roundRobinBalancer :=
  { pickers := fun _ => none, duration := 3 * 60 * 1000000000 }

/-- The picker states that exist at run time: the one `Balance` creates for a
list of `n` nodes, and every state a `pick` call leaves behind. -/
inductive Reachable (Node : Type) : roundRobinPicker → Prop where
  | create (t0 : Time) (d : Duration) (n : Nat) :
      Reachable Node { lastUpdateTime := t0, duration := d, length := n, lastIndex := 0 }
  | pick (rp : roundRobinPicker) (nodes : List Node) (now now2 : Time) :
      Reachable Node rp → Reachable Node (pick rp nodes now now2).1

/-- The test that sends `pick` into its reset branch. -/
def resetCond {Node : Type} (rp : roundRobinPicker) (nodes : List Node) (now : Time) : Prop :=
  Sub now rp.lastUpdateTime > rp.duration ∨ nodes.length ≠ rp.length

instance {Node : Type} (rp : roundRobinPicker) (nodes : List Node) (now : Time) :
    Decidable (resetCond rp nodes now) :=
  inferInstanceAs (Decidable (Sub now rp.lastUpdateTime > rp.duration ∨
    nodes.length ≠ rp.length))

/-- Consecutive `pick` calls on one node list, one per pair of clock readings:
the picker after each call and what the call returned. -/
def pickRun {Node : Type} (rp : roundRobinPicker) (nodes : List Node) :
    List (Time × Time) → List (roundRobinPicker × Outcome (Option Node))
  | [] => []
  | t :: ts => pick rp nodes t.1 t.2 :: pickRun (pick rp nodes t.1 t.2).1 nodes ts

/-- No call of the run takes the reset branch. -/
def NoResetRun {Node : Type} (rp : roundRobinPicker) (nodes : List Node) :
    List (Time × Time) → Prop
  | [] => True
  | t :: ts => ¬ resetCond rp nodes t.1 ∧ NoResetRun (pick rp nodes t.1 t.2).1 nodes ts

/-- The picker invariant: the last index is zero or below the recorded length. -/
def PInv (rp : roundRobinPicker) : Prop :=
  rp.lastIndex = 0 ∨ rp.lastIndex < rp.length

/-- Decision procedure for `NoResetRun`: run the calls and test each one. -/
def decNoResetRun {Node : Type} (rp : roundRobinPicker) (nodes : List Node) :
    (ts : List (Time × Time)) → Decidable (NoResetRun rp nodes ts)
  | [] => isTrue trivial
  | t :: ts =>
    match (inferInstance : Decidable (resetCond rp nodes t.1)),
        decNoResetRun (pick rp nodes t.1 t.2).1 nodes ts with
    | isFalse h1, isTrue h2 => isTrue ⟨h1, h2⟩
    | isTrue h1, _ => isFalse (fun h => h.1 h1)
    | _, isFalse h2 => isFalse (fun h => h2 h.2)

instance {Node : Type} (rp : roundRobinPicker) (nodes : List Node) (ts : List (Time × Time)) :
    Decidable (NoResetRun rp nodes ts) :=
  decNoResetRun rp nodes ts

end selector

/-! ## Server side: envelope, dispatch, connection worker, accept loop -/

namespace codes

/-- Modelled from the spec: the type assertion `err.(*codes.Error)` with the
fields `Code` and `Message` of the error. Package `codes` is not among the
sources; both `codes.NewFrameworkError` and `codes.New` build a `*codes.Error`,
every other error is of another type. -/
def asError : Error → Option (Code × String)
  | .framework code msg => some (code, msg)
  | .coded code msg => some (code, msg)
  | _ => none

/-- Modelled from the spec: the variable `codes.ServerInternalError`, the
framework error of code `ServerInternalErrorCode` whose message is
`internal error`. -/
def ServerInternalError : Error := .framework .ServerInternalErrorCode "internal error"

/-- The field `Message` of a `*codes.Error` (empty for other errors). -/
def Message (e : Error) : String :=
  match asError e with
  | some (_, msg) => msg
  | none => ""

end codes

namespace protocol

/-- Modelled from the spec: the request envelope `protocol.Request` (package
`protocol` is not among the sources), with the fields the code reads. -/
structure Request where
  ServicePath : String
  Payload : List Byte
  Metadata : List (String × List Byte)
  deriving DecidableEq

/-- Modelled from the spec: the response envelope `protocol.Response`, with the
fields `addRspHeader` writes. The payload is a Go slice that may be `nil`. -/
structure Response where
  Payload : Option (List Byte)
  RetCode : codes.Code
  RetMsg : String
  deriving DecidableEq

end protocol

/-- A `context.Context` as far as the modelled code changes it: the server
metadata attached to it and the timeout it was wrapped with. -/
structure Context where
  serverMetadata : List (String × List Byte)
  timeout : Option Int
  deriving DecidableEq

namespace utils

/-- Split a path at its last `/`: what stands before it and what stands after. -/
def splitLast : List Char → Option (List Char × List Char)
  | [] => none
  | c :: rest =>
    match splitLast rest with
    | some (a, b) => some (c :: a, b)
    | none => if c = '/' then some ([], rest) else none

/-- Modelled from the spec: `utils.ParseServicePath` (package `utils` is not
among the sources). The parser strips a single leading `/` and splits on the
last `/`; an empty service or method is a parse failure, for which a plain
error stands here (the spec names no text for it). -/
def ParseServicePath (path : String) : Except Error (String × String) :=
  let cs : List Char :=
    match path.data with
    | '/' :: rest => rest
    | cs => cs
  match splitLast cs with
  | none => .error (.plain "invalid service path")
  | some (svc, method) =>
    if svc = [] ∨ method = [] then .error (.plain "invalid service path")
    else .ok (String.mk svc, String.mk method)

end utils

namespace interceptor

/-- The terminal handler of the server chain:
`func(ctx context.Context, reqbody interface{}) (interface{}, error)`; it may
panic. `Obj` is the type of Go values behind `interface{}`. -/
abbrev ServerHandler (Obj : Type) := Context → Obj → Outcome (Option Obj × Option Error)

/-- A server interceptor `(context, request, next) → (response, error)`. -/
abbrev ServerInterceptor (Obj : Type) :=
  Context → Obj → ServerHandler Obj → Outcome (Option Obj × Option Error)

/-- Modelled from the spec: `interceptor.ServerIntercept` (package `interceptor`
is not among the sources). The interceptors are composed around the terminal
handler, the first registered being the outermost, and the chain is called. -/
def ServerIntercept {Obj : Type} (ctx : Context) (req : Obj)
    (ceps : List (ServerInterceptor Obj)) (handler : ServerHandler Obj) :
    Outcome (Option Obj × Option Error) :=
  (ceps.foldr (fun cep next => fun c r => cep c r next) handler) ctx req

end interceptor

namespace codec

/-- The interface `codec.Serialization`: `Marshal(object)` (the object may be
`nil`) and `Unmarshal(bytes, dest)`, the latter returning what it stored in the
destination. -/
structure Serialization (Obj : Type) where
  Marshal : Option Obj → Except Error (List Byte)
  Unmarshal : List Byte → Except Error Obj

/-- Modelled from the spec: the serializer `pbSerialization`; its source
`codec/serialization.go` is not among the sources, only its test is. Marshal of
a nil object and Unmarshal of empty bytes fail with a `ClientMsgError`, whose
text the spec does not give (`msgNil`, `msgEmpty`); other inputs go to the
protobuf library (`encode`, `decode`). -/
def pbSerialization {Obj : Type} (msgNil msgEmpty : String)
    (encode : Obj → Except Error (List Byte)) (decode : List Byte → Except Error Obj) :
    Serialization Obj where
  Marshal := fun v =>
    match v with
    | none => .error (.framework .ClientMsgErrorCode msgNil)
    | some x => encode x
  Unmarshal := fun data =>
    if data.length = 0 then .error (.framework .ClientMsgErrorCode msgEmpty)
    else decode data

/-- Modelled from the spec: the serializer `MsgpackSerialization`; its source is
not among the sources, only its test is. Marshal of a nil object and Unmarshal
of empty bytes fail with a `ClientMsgError`; other inputs go to the msgpack
library (`encode`, `decode`). -/
def MsgpackSerialization {Obj : Type} (msgNil msgEmpty : String)
    (encode : Obj → Except Error (List Byte)) (decode : List Byte → Except Error Obj) :
    Serialization Obj where
  Marshal := fun v =>
    match v with
    | none => .error (.framework .ClientMsgErrorCode msgNil)
    | some x => encode x
  Unmarshal := fun data =>
    if data.length = 0 then .error (.framework .ClientMsgErrorCode msgEmpty)
    else decode data

end codec

namespace transport

/-- Source `func addRspHeader(payload []byte, err error) *protocol.Response`. -/
def addRspHeader (payload : Option (List Byte)) (err : Option Error) : protocol.Response :=
  let response : protocol.Response :=
    { Payload := payload, RetCode := codes.Code.OK, RetMsg := "success" }
  match err with
  | none => response
  | some e =>
    match codes.asError e with
    | some (code, msg) => { response with RetCode := code, RetMsg := msg }
    | none =>
      { response with RetCode := codes.Code.ServerInternalErrorCode,
                      RetMsg := codes.Message codes.ServerInternalError }

/-- The part of `ServerTransportOptions` that `handle` reads: the handler
(`Handler.Handle(ctx, request)`, which may panic). -/
structure ServerTransportOptions where
  Handler : Context → List Byte → Outcome (Option (List Byte) × Option Error)

/-- Source `type serverTransport struct`. -/
structure serverTransport where
  opts : ServerTransportOptions

/-- Source `func (s *serverTransport) handle(ctx, requestBuf) ([]byte, error)`, with
the default codec and with `proto.Marshal` on a response as the parameter
`protoMarshal`. -/
def handle (protoMarshal : protocol.Response → Except Error (List Byte))
    (s : serverTransport) (ctx : Context) (requestBuf : List Byte) :
    Outcome (Option (List Byte) × Option Error) :=
  match codec.Decode requestBuf with
  | .panic => .panic
  | .ret (.error err) => .ret (none, some err)
  | .ret (.ok request) =>
    match s.opts.Handler ctx request with
    | .panic => .panic
    | .ret (responseBuf, err) =>
      let response := addRspHeader responseBuf err
      match protoMarshal response with
      | .error err => .ret (none, some err)
      | .ok rspPb =>
        match codec.Encode rspPb with
        | .error err => .ret (none, some err)
        | .ok responseBody => .ret (some responseBody, none)

/-- Source `type connWrapper struct`: the connection (its read side, the frames
written to it so far, the error its `Write` reports if it fails, whether it was
closed) and the framer. -/
structure connWrapper where
  conn : Conn
  written : List (List Byte)
  writeErr : Option Error
  closed : Bool
  framer : framer

/-- Source `func wrapConn(rawConn net.Conn) *connWrapper`. -/
def wrapConn (conn : Conn) (writeErr : Option Error) : connWrapper :=
  { conn := conn, written := [], writeErr := writeErr, closed := false, framer := NewFramer }

/-- Go `conn.Write(rsp)`: the bytes go out, or the connection reports its error. -/
def connWrite (c : connWrapper) (rsp : Option (List Byte)) : connWrapper × Option Error :=
  match c.writeErr with
  | some err => (c, some err)
  | none => ({ c with written := c.written ++ [rsp.getD []] }, none)

/-- Source `func (s *serverTransport) write(ctx, conn, rsp []byte) error`: the
error of `conn.Write` is logged, and `nil` is returned. -/
def write (c : connWrapper) (rsp : Option (List Byte)) : connWrapper × Option Error :=
  match connWrite c rsp with
  | (c1, _) => (c1, none)

/-- Source `func (s *serverTransport) read(ctx, conn) ([]byte, error)`. -/
def read (c : connWrapper) : connWrapper × Outcome (Option (List Byte) × Option Error) :=
  match ReadFrame c.framer c.conn with
  | (f1, conn1, .panic) => ({ c with framer := f1, conn := conn1 }, .panic)
  | (f1, conn1, .ret (request, err)) =>
    if err ≠ none then ({ c with framer := f1, conn := conn1 }, .ret (none, err))
    else ({ c with framer := f1, conn := conn1 }, .ret (request, none))

/-- The loop of `handleConn`, run for at most `fuel` rounds (`none` when the
rounds run out). `done i` tells whether the context is cancelled when round `i`
tests `ctx.Done()`. A panic of a callee ends the loop as a panic. -/
def handleConnLoop (protoMarshal : protocol.Response → Except Error (List Byte))
    (s : serverTransport) (ctx : Context) (done : Nat → Bool) :
    Nat → Nat → connWrapper → Option (connWrapper × Outcome (Option Error))
  | 0, _, _ => none
  | fuel + 1, i, c =>
    if done i then some (c, .ret (some Error.Canceled))
    else
      match read c with
      | (c1, .panic) => some (c1, .panic)
      | (c1, .ret (frame, err)) =>
        if err = some Error.EOF then some (c1, .ret none)
        else if err ≠ none then some (c1, .ret err)
        else
          match handle protoMarshal s ctx (frame.getD []) with
          | .panic => some (c1, .panic)
          | .ret (rsp, _) =>
            match write c1 rsp with
            | (c2, werr) =>
              if werr ≠ none then some (c2, .ret werr)
              else handleConnLoop protoMarshal s ctx done fuel (i + 1) c2

/-- Source `func (s *serverTransport) handleConn(ctx, conn *connWrapper) error`: the
loop, and the deferred `conn.Close()`, which runs on a return and on a panic
alike. Every round that goes on has consumed a frame, so one round more than
there are pending bytes is enough. -/
def handleConn (protoMarshal : protocol.Response → Except Error (List Byte))
    (s : serverTransport) (ctx : Context) (done : Nat → Bool) (c : connWrapper) :
    Option (connWrapper × Outcome (Option Error)) :=
  match handleConnLoop protoMarshal s ctx done (c.conn.pending.length + 1) 0 c with
  | none => none
  | some (c1, r) => some ({ c1 with closed := true }, r)

/-- Go `time.Millisecond` in nanoseconds. -/
def Millisecond : Int := 1000000
/-- Go `time.Second` in nanoseconds. -/
def Second : Int := 1000000000

/-- What one round of the accept loop meets: the context is cancelled, or
`AcceptTCP` returns a connection (with the result of `SetKeepAlive`), a
temporary error, or another error. -/
inductive AcceptEvent where
  | done
  | accepted (keepAliveErr : Option Error)
  | temporary (err : Error)
  | failed (err : Error)

/-- The trace of a run of the accept loop: the sleeps taken, in order, the
number of connection workers started, and the error returned (`none` while the
loop is still waiting in `AcceptTCP`). -/
structure ServeRun where
  sleeps : List Int
  spawned : Nat
  result : Option Error
  deriving DecidableEq

/-- The loop of `serve`, from the current `tempDelay`, over the events it meets. -/
def serveLoop (tempDelay : Int) : List AcceptEvent → ServeRun
  | [] => { sleeps := [], spawned := 0, result := none }
  | .done :: _ => { sleeps := [], spawned := 0, result := some Error.Canceled }
  | .temporary _ :: rest =>
    let tempDelay1 := if tempDelay = 0 then 5 * Millisecond else tempDelay * 2
    let tempDelay2 := if tempDelay1 > 1 * Second then 1 * Second else tempDelay1
    let r := serveLoop tempDelay2 rest
    { r with sleeps := tempDelay2 :: r.sleeps }
  | .failed err :: _ => { sleeps := [], spawned := 0, result := some err }
  | .accepted (some err) :: _ => { sleeps := [], spawned := 0, result := some err }
  | .accepted none :: rest =>
    let r := serveLoop tempDelay rest
    { r with spawned := r.spawned + 1 }

/-- Source `func (s *serverTransport) serve(ctx, listener net.Listener) error`:
`tempDelay` starts at zero; a listener that is no `*net.TCPListener` is refused
with `codes.NetworkNotSupportedError` (the parameter `notSupported`). -/
def serve (notSupported : Error) (isTCP : Bool) (events : List AcceptEvent) : ServeRun :=
  if isTCP then serveLoop 0 events
  else { sleeps := [], spawned := 0, result := some notSupported }

end transport

namespace novarpc

/-- Source `type Handler func(context.Context, interface{}, func(interface{}) error,
[]interceptor.ServerInterceptor) (interface{}, error)`. The decoder is applied
once, to a fresh request object, so it is given by its result: the decoded
request or the error. The `svr` argument is not used by the handlers that
`getServiceMethods` builds and is left out. A handler may panic. -/
abbrev Handler (Obj : Type) :=
  Context → Except Error Obj → List (interceptor.ServerInterceptor Obj) →
    Outcome (Option Obj × Option Error)

/-- A user method of the shape `(context, *Request) → (*Response, error)`, as
`method.Func.Call` runs it: it returns its two values or panics. -/
abbrev Method (Obj : Type) := Context → Obj → Outcome (Option Obj × Option Error)

/-- The closure `methodHandler` that `getServiceMethods` builds for a method:
`values[0]` is returned together with a `nil` error on both paths. -/
def methodHandler {Obj : Type} (method : Method Obj) : Handler Obj :=
  fun ctx dec ceps =>
    match dec with
    | .error err => .ret (none, some err)
    | .ok req =>
      if ceps.length = 0 then
        match method ctx req with
        | .panic => .panic
        | .ret values => .ret (values.1, none)
      else
        let handler : interceptor.ServerHandler Obj := fun ctx1 _ =>
          match method ctx1 req with
          | .panic => .panic
          | .ret values => .ret (values.1, none)
        interceptor.ServerIntercept ctx req ceps handler

/-- Source `type ServerOptions struct`. -/
structure ServerOptions (Obj : Type) where
  address : String
  network : String
  protocol : String
  timeout : Int
  serializationType : String
  selectorSvrAddr : String
  tracingSvrAddr : String
  tracingSpanName : String
  pluginNames : List String
  interceptors : List (interceptor.ServerInterceptor Obj)

/-- Source `type service struct`: the name, the handler table, the options and the
closing flag; of the context pair, whether a cancel function is set and whether
the context has been cancelled. -/
structure service (Obj : Type) where
  serviceName : String
  handlers : String → Option (Handler Obj)
  opts : ServerOptions Obj
  closing : Bool
  hasCancel : Bool
  cancelled : Bool

/-- The library and registry calls of `service.Handle`: `proto.Unmarshal` into a
request envelope and `codec.GetSerialization`. -/
structure Env (Obj : Type) where
  protoUnmarshal : List Byte → Except Error protocol.Request
  GetSerialization : String → codec.Serialization Obj

/-- Source `func (s *service) Handle(ctx context.Context, reqbuf []byte) ([]byte, error)`. -/
def service.Handle {Obj : Type} (env : Env Obj) (s : service Obj) (ctx : Context)
    (reqbuf : List Byte) : Outcome (Option (List Byte) × Option Error) :=
  match env.protoUnmarshal reqbuf with
  | .error err => .ret (none, some err)
  | .ok request =>
    let ctx1 : Context := { ctx with serverMetadata := request.Metadata }
    let serverSerialization := env.GetSerialization s.opts.serializationType
    let dec : Except Error Obj := serverSerialization.Unmarshal request.Payload
    let ctx2 : Context :=
      if s.opts.timeout ≠ 0 then { ctx1 with timeout := some s.opts.timeout } else ctx1
    match utils.ParseServicePath request.ServicePath with
    | .error _ => .ret (none, some (.coded .ClientMsgErrorCode "method is invalid"))
    | .ok (_, method) =>
      match s.handlers method with
      | none => .ret (none, some (.plain "handlers is nil"))
      | some handler =>
        match handler ctx2 dec s.opts.interceptors with
        | .panic => .panic
        | .ret (_, some err) => .ret (none, some err)
        | .ret (rsp, none) =>
          match serverSerialization.Marshal rsp with
          | .error err => .ret (none, some err)
          | .ok responseBuf => .ret (some responseBuf, none)

/-- Source `func (s *service) Close()`. -/
def service.Close {Obj : Type} (s : service Obj) : service Obj :=
  { s with closing := true, cancelled := if s.hasCancel then true else s.cancelled }

/-- Source `type Server struct` (without the plugin list). -/
structure Server (Obj : Type) where
  opts : ServerOptions Obj
  service : service Obj
  closing : Bool

/-- Source `func (s *Server) Close()`. -/
def Server.Close {Obj : Type} (s : Server Obj) : Server Obj :=
  { s with closing := false, service := s.service.Close }

end novarpc

namespace client

/-- Source `type Options struct`. The interceptors and the authentication values
are of types declared outside the sources and are named by numbers; the field
`transportOpts`, which nothing in the package touches, is left out. -/
structure Options where
  serviceName : String
  method : String
  target : String
  timeout : Int
  network : String
  protocol : String
  serializationType : String
  interceptors : List Nat
  selectorName : String
  perRPCAuth : List Nat
  transportAuth : Option Nat
  deriving DecidableEq

/-- Source `type Option func(*Options)`: what the function does to the record. -/
abbrev Opt := Options → Options

/-- Source `func WithServiceName(serviceName string) Option`. -/
def WithServiceName (serviceName : String) : Opt := fun o => { o with serviceName := serviceName }
/-- Source `func WithMethod(method string) Option`. -/
def WithMethod (method : String) : Opt := fun o => { o with method := method }
/-- Source `func WithTarget(target string) Option`. -/
def WithTarget (target : String) : Opt := fun o => { o with target := target }
/-- Source `func WithTimeout(timeout time.Duration) Option`. -/
def WithTimeout (timeout : Int) : Opt := fun o => { o with timeout := timeout }
/-- Source `func WithNetwork(network string) Option`. -/
def WithNetwork (network : String) : Opt := fun o => { o with network := network }
/-- Source `func WithProtocol(protocol string) Option`. -/
def WithProtocol (protocol : String) : Opt := fun o => { o with protocol := protocol }
/-- Source `func WithSerializationType(serializationType string) Option`. -/
def WithSerializationType (serializationType : String) : Opt :=
  fun o => { o with serializationType := serializationType }
/-- Source `func WithSelectorName(selectorName string) Option`. -/
def WithSelectorName (selectorName : String) : Opt :=
  fun o => { o with selectorName := selectorName }
/-- Source `func WithInterceptor(interceptors ...interceptor.ClientInterceptor) Option`. -/
def WithInterceptor (interceptors : List Nat) : Opt :=
  fun o => { o with interceptors := o.interceptors ++ interceptors }
/-- Source `func WithPerRPCAuth(rpcAuth auth.PerRPCAuth) Option`. -/
def WithPerRPCAuth (rpcAuth : Nat) : Opt :=
  fun o => { o with perRPCAuth := o.perRPCAuth ++ [rpcAuth] }
/-- Source `func WithTransportAuth(transportAuth auth.TransportAuth) Option`. -/
def WithTransportAuth (transportAuth : Nat) : Opt :=
  fun o => { o with transportAuth := some transportAuth }

/-- Source `type defaultClient struct`: the options record behind the pointer that
all calls on the client share. -/
structure defaultClient where
  opts : Options
  deriving DecidableEq

/-- Source `var NewDefaultClient = func() *defaultClient`. -/
def NewDefaultClient : defaultClient :=
  { opts :=
      { serviceName := "", method := "", target := "", timeout := 0, network := "",
        protocol := "proto", serializationType := "", interceptors := [], selectorName := "",
        perRPCAuth := [], transportAuth := none } }

/-- The client-stream record that `stream.NewClientStream` attaches to the
context, with the two fields `Invoke` sets. -/
structure ClientStream where
  ServiceName : String
  Method : String
  deriving DecidableEq

/-- What `Invoke` leaves behind: the client, the client-stream record of the
call, and the returned error. -/
structure InvokeResult where
  client : defaultClient
  clientStream : ClientStream
  err : Option Error

/-- Source `func (c *defaultClient) Invoke(ctx, req, rsp interface{}, path string,
opts ...Option) error`. The interceptor chain around `c.invoke`, which reads the
options and the stream record and does the network call, is the parameter
`chain`. -/
def Invoke (chain : Context → Options → ClientStream → Option Error) (c : defaultClient)
    (ctx : Context) (path : String) (opts : List Opt) : InvokeResult :=
  let o1 : Options := opts.foldl (fun o f => f o) c.opts
  let ctx1 : Context := if o1.timeout > 0 then { ctx with timeout := some o1.timeout } else ctx
  let clientStream : ClientStream := { ServiceName := "", Method := "" }
  match utils.ParseServicePath path with
  | .error err => { client := { opts := o1 }, clientStream := clientStream, err := some err }
  | .ok (serviceName, method) =>
    let o2 : Options := { o1 with serviceName := serviceName, method := method }
    let clientStream1 : ClientStream := { ServiceName := serviceName, Method := method }
    { client := { opts := o2 }, clientStream := clientStream1,
      err := chain ctx1 o2 clientStream1 }

end client

/-! ## Sample inputs -/

namespace testdata

/-- Source `func (s *Service) SayHello(ctx, req *HelloRequest) (*HelloReply, error)`,
with requests and replies given by their `Msg` field. -/
def SayHello : novarpc.Method String := fun _ _ => .ret (some "world", none)

/-- A user method that fails: it returns no reply and the error `boom`. -/
def Failing : novarpc.Method String := fun _ _ => .ret (none, some (Error.plain "boom"))

/-- A user method that panics. -/
def Panicking : novarpc.Method String := fun _ _ => .panic

/-- A server interceptor that only calls the next handler. -/
def passThrough : interceptor.ServerInterceptor String := fun ctx req next => next ctx req

/-- A stand-in for the libraries of `service.Handle`: every request buffer
unmarshals to an envelope with the given service path and the buffer as
payload, and the serializer maps a message to its UTF-8 bytes and back to a
fixed message. -/
def stubEnv (path : String) : novarpc.Env String where
  protoUnmarshal := fun buf => .ok { ServicePath := path, Payload := buf, Metadata := [] }
  GetSerialization := fun _ =>
    { Marshal := fun v => .ok ((v.getD "").data.map (fun ch => byteOf ch.toNat)),
      Unmarshal := fun _ => .ok "hello" }

/-- A service `hello.Greeter` with the one method `name`, handled by
`methodHandler method`. -/
def greeter (name : String) (method : novarpc.Method String) : novarpc.service String where
  serviceName := "hello.Greeter"
  handlers := fun m => if m = name then some (novarpc.methodHandler method) else none
  opts :=
    { address := "127.0.0.1:8000", network := "tcp", protocol := "proto", timeout := 0,
      serializationType := "msgpack", selectorSvrAddr := "", tracingSvrAddr := "",
      tracingSpanName := "", pluginNames := [], interceptors := [] }
  closing := false
  hasCancel := true
  cancelled := false

/-- A stand-in for `proto.Marshal` on a response envelope: the payload bytes. -/
def stubMarshal : protocol.Response → Except Error (List Byte) :=
  fun r => .ok (r.Payload.getD [])

/-- A server transport whose handler is the service `greeter name method`. -/
def greeterTransport (name : String) (method : novarpc.Method String) :
    transport.serverTransport where
  opts := { Handler := fun ctx buf =>
    novarpc.service.Handle (stubEnv "/hello.Greeter/SayHello") (greeter name method) ctx buf }

/-- A frame with a one-byte payload. -/
def frame1 (b : Byte) : List Byte := [0x11, 0, 0, 0, 0, 0, 0, 0, 0, 0, 1, 0, 0, 0, 0, b]

end testdata

/-! ## Client call -/

namespace codec

/-- Modelled from the spec: the constant `codec.MsgPack`, the registered name of
the msgpack serializer (`codec/serialization.go` is not among the sources). -/
def MsgPack : String := "msgpack"

end codec

namespace client

/-- Source `func (c *defaultClient) Call(ctx, servicePath string, req, rsp interface{},
opts ...Option) error`: the caller's options followed by
`WithSerializationType(codec.MsgPack)` go to `Invoke`, whose error is returned. -/
def Call (chain : Context → Options → ClientStream → Option Error) (c : defaultClient)
    (ctx : Context) (servicePath : String) (opts : List Opt) : InvokeResult :=
  let callOpts : List Opt := [] ++ opts
  let callOpts1 : List Opt := callOpts ++ [WithSerializationType codec.MsgPack]
  Invoke chain c ctx servicePath callOpts1

end client

/-! ## Codec -/

namespace codec

theorem Encode_eq (data : List Byte) :
    Encode data = .ok (headerBytes (data.length % 2 ^ 32) ++ data) := by
  simp only [Encode, binaryWrite, bind, Except.bind, pure, Except.pure, beU8, beU16, beU32,
    headerBytes, Magic, Version, List.nil_append, List.append_assoc, List.cons_append]
  rfl

theorem headerBytes_length (n : Nat) : (headerBytes n).length = 15 := rfl

theorem beUint32_headerBytes (n : Nat) (rest : List Byte) (h : n < 2 ^ 32) :
    beUint32 (((headerBytes n ++ rest).drop 7).take 4) = n := by
  simp [headerBytes, beUint32, byteOf]
  omega

/-- C1. For every byte sequence of at most 4 MiB, `Encode` succeeds, `Decode` of
the frame succeeds and gives the sequence back, and the frame starts with the
bytes `0x11 0x00`. -/
theorem C1_frame_round_trip (b : List Byte) (_hb : b.length ≤ transport.MaxPayloadLength) :
    ∃ frame, Encode b = .ok frame ∧ Decode frame = .ret (.ok b) ∧
      frame.take 2 = [0x11, 0x00] := by
  refine ⟨_, Encode_eq b, ?_, ?_⟩
  · simp [Decode, FrameHeadLen, headerBytes]
  · simp [headerBytes]

theorem C1_frame_round_trip_witness :
    ∃ frame, Encode [1, 2, 3] = .ok frame ∧ Decode frame = .ret (.ok [1, 2, 3]) ∧
      frame.take 2 = [0x11, 0x00] :=
  C1_frame_round_trip [1, 2, 3] (by decide)

/-- C2. For every byte sequence `b` of at most 4 MiB, `Encode b` is the 15 header
bytes `11 00 00 00 00 00 00 L3 L2 L1 L0 00 00 00 00` followed by `b`, where
`L3 L2 L1 L0` is `len(b)` in big-endian; the frame is `15 + len(b)` bytes long and
its bytes 7..11, read as a big-endian `u32`, equal the frame length minus 15. -/
theorem C2_encode_layout (b : List Byte) (hb : b.length ≤ transport.MaxPayloadLength) :
    ∃ (frame : List Byte) (L3 L2 L1 L0 : Byte),
      Encode b = .ok frame ∧
      L3.val * 2 ^ 24 + L2.val * 2 ^ 16 + L1.val * 2 ^ 8 + L0.val = b.length ∧
      frame = [0x11, 0x00, 0x00, 0x00, 0x00, 0x00, 0x00, L3, L2, L1, L0,
        0x00, 0x00, 0x00, 0x00] ++ b ∧
      frame.length = 15 + b.length ∧
      beUint32 ((frame.drop 7).take 4) = frame.length - 15 := by
  have h32 : b.length < 2 ^ 32 := by
    have : transport.MaxPayloadLength = 4194304 := by decide
    omega
  have hmod : b.length % 2 ^ 32 = b.length := Nat.mod_eq_of_lt h32
  refine ⟨_, byteOf (b.length / 2 ^ 24), byteOf (b.length / 2 ^ 16), byteOf (b.length / 2 ^ 8),
    byteOf b.length, Encode_eq b, ?_, ?_, ?_, ?_⟩
  · simp only [byteOf]
    omega
  · rw [hmod]
    rfl
  · simp [headerBytes]
    omega
  · rw [hmod, beUint32_headerBytes _ _ h32]
    simp [headerBytes]

theorem C2_encode_layout_witness :
    ∃ (frame : List Byte) (L3 L2 L1 L0 : Byte),
      Encode [7, 8] = .ok frame ∧
      L3.val * 2 ^ 24 + L2.val * 2 ^ 16 + L1.val * 2 ^ 8 + L0.val = [(7 : Byte), 8].length ∧
      frame = [0x11, 0x00, 0x00, 0x00, 0x00, 0x00, 0x00, L3, L2, L1, L0,
        0x00, 0x00, 0x00, 0x00] ++ [7, 8] ∧
      frame.length = 15 + [(7 : Byte), 8].length ∧
      beUint32 ((frame.drop 7).take 4) = frame.length - 15 :=
  C2_encode_layout [7, 8] (by decide)

/-- C3 as stated fails: a payload of 4 MiB + 1 bytes is longer than
`MaxPayloadLength`, and `Encode` returns no error for it. -/
theorem C3_counterexample :
    transport.MaxPayloadLength < (List.replicate 4194305 (0 : Byte)).length ∧
      ¬ ∃ e, Encode (List.replicate 4194305 (0 : Byte)) = .error e := by
  refine ⟨?_, ?_⟩
  · rw [List.length_replicate]
    decide
  · rintro ⟨e, he⟩
    rw [Encode_eq] at he
    cases he

/-- C3, amended. `Encode` has no length check: it returns no error for any
input, of at most 4 MiB or longer. -/
theorem C3_encode_never_fails (data : List Byte) :
    ∃ frame, Encode data = .ok frame ∧ frame.length = 15 + data.length := by
  refine ⟨_, Encode_eq data, ?_⟩
  simp [headerBytes]
  omega

end codec

/-! ## Framer -/

namespace transport

theorem MaxPayloadLength_eq : MaxPayloadLength = 4194304 := by decide

/-- The result of `ReadFull` when the stream holds enough bytes to fill a non-empty buffer. -/
theorem ReadFull_enough (conn : Conn) (buf : List Byte) (h0 : buf.length ≠ 0)
    (h : buf.length ≤ conn.pending.length) :
    ReadFull conn buf = ({ conn with pending := conn.pending.drop buf.length },
      conn.pending.take buf.length, buf.length, none) := by
  simp [ReadFull, h0, h]

/-- The result of `ReadFull` when the stream gives out before the buffer is full. -/
theorem ReadFull_short (conn : Conn) (buf : List Byte)
    (h : conn.pending.length < buf.length) :
    ReadFull conn buf = ({ conn with pending := [] },
      conn.pending ++ buf.drop conn.pending.length, conn.pending.length,
      some (if 0 < conn.pending.length ∧ conn.closeErr = Error.EOF then Error.ErrUnexpectedEOF
        else conn.closeErr)) := by
  have h0 : buf.length ≠ 0 := by omega
  have h1 : ¬ buf.length ≤ conn.pending.length := by omega
  simp [ReadFull, h0, h1]

/-- Reading with `ReadFull` into an empty buffer reads nothing. -/
theorem ReadFull_empty (conn : Conn) (buf : List Byte) (h : buf.length = 0) :
    ReadFull conn buf = (conn, buf, 0, none) := by
  simp [ReadFull, h]

/-- The call `ReadFull` leaves the length of the buffer as it was. -/
theorem ReadFull_length (conn : Conn) (buf : List Byte) :
    (ReadFull conn buf).2.1.length = buf.length := by
  unfold ReadFull
  split
  · rfl
  · split
    · simp
      omega
    · simp
      omega

theorem Inv_NewFramer : Inv NewFramer :=
  ⟨0, by decide, rfl, by
    show (List.replicate DefaultPayloadLength (0 : Byte)).length = 1024 * 2 ^ 0
    rw [List.length_replicate]
    rfl⟩

theorem grow_spec (f : framer) (length : Nat) (hf : Inv f) (hl : length ≤ MaxPayloadLength) :
    Inv (grow f length) ∧ length ≤ (grow f length).buffer.length := by
  obtain ⟨c, hc, hcnt, hlen⟩ := hf
  generalize hk : 12 - c = k
  induction k generalizing f c with
  | zero =>
    have hc12 : c = 12 := by omega
    subst hc12
    have hbig : ¬ (f.buffer.length % 2 ^ 32 < length) := by
      rw [MaxPayloadLength_eq] at hl
      rw [hlen]
      norm_num
      omega
    rw [grow]
    simp only [hbig, false_and, if_false]
    refine ⟨⟨12, le_refl _, hcnt, hlen⟩, ?_⟩
    rw [MaxPayloadLength_eq] at hl
    rw [hlen]
    norm_num
    omega
  | succ k ih =>
    have hpow : 2 ^ c ≤ 2 ^ 11 := Nat.pow_le_pow_right (by decide) (by omega)
    have hmod : f.buffer.length % 2 ^ 32 = f.buffer.length := by
      apply Nat.mod_eq_of_lt
      rw [hlen]
      norm_num at hpow ⊢
      omega
    rw [grow]
    by_cases hlt : f.buffer.length < length
    · have hcond : f.buffer.length % 2 ^ 32 < length ∧ f.counter ≤ 12 := by
        rw [hmod, hcnt]
        exact ⟨hlt, by omega⟩
      rw [if_pos hcond]
      apply ih _ (c + 1) (by omega)
      · simp [hcnt]
      · simp [hlen, Nat.pow_succ]
        omega
      · omega
    · have hcond : ¬ (f.buffer.length % 2 ^ 32 < length ∧ f.counter ≤ 12) := by
        rw [hmod]
        exact fun h => hlt h.1
      rw [if_neg hcond]
      exact ⟨⟨c, hc, hcnt, hlen⟩, by omega⟩

/-- The header read of `ReadFrame` when the stream holds 15 bytes or more. -/
theorem ReadFull_header (conn : Conn) (h : 15 ≤ conn.pending.length) :
    ReadFull conn (List.replicate codec.FrameHeadLen 0) =
      ({ conn with pending := conn.pending.drop 15 }, conn.pending.take 15, 15, none) := by
  have hl : (List.replicate codec.FrameHeadLen (0 : Byte)).length = 15 := by
    rw [List.length_replicate]
    rfl
  rw [ReadFull_enough conn _ (by omega) (by omega), hl]

theorem take15_getD (l : List Byte) (h : 15 ≤ l.length) : (l.take 15).getD 0 0 = l.getD 0 0 := by
  cases l with
  | nil => simp at h
  | cons a t => simp

theorem take15_field (l : List Byte) : ((l.take 15).drop 7).take 4 = (l.drop 7).take 4 := by
  rw [List.drop_take, List.take_take]
  rfl

/-- What `ReadFrame` does on a stream that starts with a whole frame. -/
theorem ReadFrame_ok (f : framer) (conn : Conn) (L : Nat) (hf : Inv f)
    (hh : HeaderAt conn.pending L) (hL : L ≤ MaxPayloadLength)
    (hlen : 15 + L ≤ conn.pending.length) :
    ReadFrame f conn =
      ({ buffer := (conn.pending.drop 15).take L ++ (grow f L).buffer.drop L,
         counter := (grow f L).counter },
        { conn with pending := conn.pending.drop (15 + L) },
        .ret (some (conn.pending.take (15 + L)), none)) := by
  obtain ⟨h15, hmagic, hfield⟩ := hh
  obtain ⟨-, hbuf⟩ := grow_spec f L hf hL
  have hL32 : L % 2 ^ 32 = L := by
    rw [MaxPayloadLength_eq] at hL
    omega
  have hm : ¬ ((conn.pending.take 15).getD 0 0).val ≠ codec.Magic := by
    rw [take15_getD _ h15, hmagic]
    simp [codec.Magic]
  unfold ReadFrame
  rw [ReadFull_header conn h15]
  simp only [ne_eq, not_true_eq_false, or_self, if_false, take15_field, hfield, hm,
    show ¬ L > MaxPayloadLength from by omega,
    show ¬ L > (grow f L).buffer.length from by omega, codec.FrameHeadLen]
  have hbl : ((grow f L).buffer.take L).length = L := by
    rw [List.length_take]
    omega
  by_cases h0 : L = 0
  · subst h0
    rw [ReadFull_empty _ _ (by simp)]
    simp
  · rw [ReadFull_enough _ _ (by omega) (by simp; omega), hbl]
    simp only [hL32, not_true_eq_false, or_self, if_false]
    have e1 : ((conn.pending.drop 15).take L ++ (grow f L).buffer.drop L).take L
        = (conn.pending.drop 15).take L := by
      rw [List.take_append_of_le_length (by simp; omega), List.take_take]
      simp
    rw [e1, List.take_add, List.drop_drop]

/-- The call `ReadFrame` keeps the framer invariant. -/
theorem ReadFrame_Inv (f : framer) (conn : Conn) (hf : Inv f) : Inv (ReadFrame f conn).1 := by
  unfold ReadFrame
  rcases ReadFull conn (List.replicate codec.FrameHeadLen 0) with ⟨conn1, frameHeader, num, err⟩
  dsimp only
  generalize codec.beUint32 ((frameHeader.drop 7).take 4) = L
  split
  · exact hf
  · split
    · exact hf
    · split
      · exact hf
      · rename_i hmax
        have hg := grow_spec f L hf (by omega)
        split
        · exact hg.1
        · rename_i hfit
          have hbody := ReadFull_length conn1 ((grow f L).buffer.take L)
          rcases hR : ReadFull conn1 ((grow f L).buffer.take L) with ⟨conn2, body, num2, err2⟩
          rw [hR] at hbody
          obtain ⟨c, hc, hcnt, hlen⟩ := hg.1
          have hres : Inv ⟨body ++ (grow f L).buffer.drop L, (grow f L).counter⟩ := by
            refine ⟨c, hc, hcnt, ?_⟩
            simp only [List.length_append, List.length_drop]
            simp only [List.length_take] at hbody
            omega
          dsimp only
          split
          · exact hres
          · exact hres

/-- Every reachable framer satisfies the invariant. -/
theorem Reachable.inv {f : framer} (h : Reachable f) : Inv f := by
  induction h with
  | new => exact Inv_NewFramer
  | step f conn _ ih => exact ReadFrame_Inv f conn ih

/-- When the stream does not start with a whole well-formed frame, `ReadFrame`
returns an error and no bytes. -/
theorem ReadFrame_err (f : framer) (conn : Conn) (hf : Inv f)
    (hbad : ¬ ∃ L, HeaderAt conn.pending L ∧ L ≤ MaxPayloadLength ∧
      15 + L ≤ conn.pending.length) :
    ∃ e, (ReadFrame f conn).2.2 = .ret (none, some e) := by
  by_cases h15 : 15 ≤ conn.pending.length
  · unfold ReadFrame
    rw [ReadFull_header conn h15]
    simp only [ne_eq, not_true_eq_false, or_self, if_false, take15_field, take15_getD _ h15,
      codec.FrameHeadLen]
    by_cases hmagic : (conn.pending.getD 0 0).val = codec.Magic
    · simp only [hmagic, not_true_eq_false, if_false]
      by_cases hmax : codec.beUint32 ((conn.pending.drop 7).take 4) > MaxPayloadLength
      · simp only [hmax, if_true]
        exact ⟨_, rfl⟩
      · simp only [hmax, if_false]
        have hshort : ¬ 15 + codec.beUint32 ((conn.pending.drop 7).take 4)
            ≤ conn.pending.length :=
          fun h => hbad ⟨_, ⟨h15, hmagic, rfl⟩, by omega, h⟩
        have hg := (grow_spec f (codec.beUint32 ((conn.pending.drop 7).take 4)) hf
          (by omega)).2
        rw [if_neg (by omega)]
        rw [ReadFull_short _ _ (by simp; omega)]
        simp
    · simp only [hmagic, not_false_eq_true, if_true]
      exact ⟨_, rfl⟩
  · unfold ReadFrame
    rw [ReadFull_short conn _ (by simp [codec.FrameHeadLen]; omega)]
    have hne : conn.pending.length ≠ codec.FrameHeadLen := by
      simp only [codec.FrameHeadLen]
      omega
    simp [hne]

/-- C4. For a reachable framer: when the stream starts with a header of magic
`0x11` and length field `L` of at most 4 MiB and holds `15 + L` bytes or more,
`ReadFrame` returns exactly the next `15 + L` bytes with no error and consumes
exactly those; and in every case `ReadFrame` either returns such a whole frame
or returns an error and no bytes. -/
theorem C4_read_frame_whole_or_error (f : framer) (conn : Conn) (hf : Reachable f) :
    (∀ L, HeaderAt conn.pending L → L ≤ MaxPayloadLength → 15 + L ≤ conn.pending.length →
      (ReadFrame f conn).2.2 = .ret (some (conn.pending.take (15 + L)), none) ∧
      (ReadFrame f conn).2.1 = { conn with pending := conn.pending.drop (15 + L) }) ∧
    ((∃ L, HeaderAt conn.pending L ∧ L ≤ MaxPayloadLength ∧ 15 + L ≤ conn.pending.length ∧
        (ReadFrame f conn).2.2 = .ret (some (conn.pending.take (15 + L)), none) ∧
        (ReadFrame f conn).2.1 = { conn with pending := conn.pending.drop (15 + L) }) ∨
      ∃ e, (ReadFrame f conn).2.2 = .ret (none, some e)) := by
  have key : ∀ L, HeaderAt conn.pending L → L ≤ MaxPayloadLength →
      15 + L ≤ conn.pending.length →
      (ReadFrame f conn).2.2 = .ret (some (conn.pending.take (15 + L)), none) ∧
      (ReadFrame f conn).2.1 = { conn with pending := conn.pending.drop (15 + L) } := by
    intro L hh hL hlen
    rw [ReadFrame_ok f conn L hf.inv hh hL hlen]
    exact ⟨rfl, rfl⟩
  refine ⟨key, ?_⟩
  by_cases hgood : ∃ L, HeaderAt conn.pending L ∧ L ≤ MaxPayloadLength ∧
      15 + L ≤ conn.pending.length
  · obtain ⟨L, hh, hL, hlen⟩ := hgood
    exact Or.inl ⟨L, hh, hL, hlen, key L hh hL hlen⟩
  · exact Or.inr (ReadFrame_err f conn hf.inv hgood)

theorem C4_read_frame_whole_or_error_witness :
    Reachable NewFramer ∧
    HeaderAt [0x11, 0, 0, 0, 0, 0, 0, 0, 0, 0, 2, 0, 0, 0, 0, 0xAA, 0xBB, 0xCC] 2 ∧
    (ReadFrame NewFramer
        ⟨[0x11, 0, 0, 0, 0, 0, 0, 0, 0, 0, 2, 0, 0, 0, 0, 0xAA, 0xBB, 0xCC], Error.EOF⟩).2.2
      = .ret (some [0x11, 0, 0, 0, 0, 0, 0, 0, 0, 0, 2, 0, 0, 0, 0, 0xAA, 0xBB], none) ∧
    (ReadFrame NewFramer
        ⟨[0x11, 0, 0, 0, 0, 0, 0, 0, 0, 0, 2, 0, 0, 0, 0, 0xAA, 0xBB, 0xCC], Error.EOF⟩).2.1
      = ⟨[0xCC], Error.EOF⟩ :=
  ⟨Reachable.new, by decide,
    (C4_read_frame_whole_or_error NewFramer
      ⟨[0x11, 0, 0, 0, 0, 0, 0, 0, 0, 0, 2, 0, 0, 0, 0, 0xAA, 0xBB, 0xCC], Error.EOF⟩
      Reachable.new).1 2 (by decide) (by decide) (by decide)⟩

/-- C5. For every framer and every stream that holds 15 bytes or more and whose
first byte is not `0x11`, `ReadFrame` returns no bytes and the framework error
of code `ClientMsgErrorCode` with message `invalid magic...`; it consumes the 15
header bytes and no more, and leaves the framer as it was. -/
theorem C5_invalid_magic (f : framer) (conn : Conn) (h15 : 15 ≤ conn.pending.length)
    (hm : conn.pending.getD 0 0 ≠ 0x11) :
    (ReadFrame f conn).2.2 =
        .ret (none, some (.framework .ClientMsgErrorCode "invalid magic...")) ∧
      (ReadFrame f conn).2.1.pending = conn.pending.drop 15 ∧
      conn.pending.length - (ReadFrame f conn).2.1.pending.length ≤ 15 ∧
      (ReadFrame f conn).1 = f := by
  have hv : (conn.pending.getD 0 0).val ≠ codec.Magic := by
    intro h
    apply hm
    apply Fin.ext
    rw [h]
    rfl
  have hR : ReadFrame f conn = (f, { conn with pending := conn.pending.drop 15 },
      .ret (none, some (.framework .ClientMsgErrorCode "invalid magic..."))) := by
    unfold ReadFrame
    rw [ReadFull_header conn h15]
    simp only [ne_eq, not_true_eq_false, or_self, if_false, take15_getD _ h15,
      codec.FrameHeadLen]
    rw [if_pos hv]
  rw [hR]
  refine ⟨rfl, rfl, ?_, rfl⟩
  simp only [List.length_drop]
  omega

theorem C5_invalid_magic_witness :
    (ReadFrame NewFramer
        ⟨[0x00, 0, 0, 0, 0, 0, 0, 0, 0, 0, 1, 0, 0, 0, 0, 0xAA, 0xBB], Error.EOF⟩).2.2 =
        .ret (none, some (.framework .ClientMsgErrorCode "invalid magic...")) ∧
      (ReadFrame NewFramer
        ⟨[0x00, 0, 0, 0, 0, 0, 0, 0, 0, 0, 1, 0, 0, 0, 0, 0xAA, 0xBB], Error.EOF⟩).2.1.pending
        = [0xAA, 0xBB] :=
  have h := C5_invalid_magic NewFramer
    ⟨[0x00, 0, 0, 0, 0, 0, 0, 0, 0, 0, 1, 0, 0, 0, 0, 0xAA, 0xBB], Error.EOF⟩
    (by decide) (by decide)
  ⟨h.1, h.2.1⟩

/-- C6. For every framer and every stream whose first 15 bytes carry the magic
`0x11` and a big-endian length field above 4 MiB, `ReadFrame` returns no bytes
and the framework error of code `ClientMsgErrorCode` with message
`payload too large...`; it has consumed exactly the 15 header bytes, none of the
body, and the framer (buffer and counter) is as it was. -/
theorem C6_payload_too_large (f : framer) (conn : Conn) (h15 : 15 ≤ conn.pending.length)
    (hm : conn.pending.getD 0 0 = 0x11)
    (hbig : MaxPayloadLength < codec.beUint32 ((conn.pending.drop 7).take 4)) :
    (ReadFrame f conn).2.2 =
        .ret (none, some (.framework .ClientMsgErrorCode "payload too large...")) ∧
      (ReadFrame f conn).2.1 = { conn with pending := conn.pending.drop 15 } ∧
      (ReadFrame f conn).1 = f := by
  have hv : ¬ (conn.pending.getD 0 0).val ≠ codec.Magic := by
    rw [hm]
    exact fun h => h rfl
  have hR : ReadFrame f conn = (f, { conn with pending := conn.pending.drop 15 },
      .ret (none, some (.framework .ClientMsgErrorCode "payload too large..."))) := by
    unfold ReadFrame
    rw [ReadFull_header conn h15]
    simp only [ne_eq, not_true_eq_false, or_self, if_false, take15_getD _ h15,
      codec.FrameHeadLen, take15_field]
    rw [if_neg hv, if_pos hbig]
  rw [hR]
  exact ⟨rfl, rfl, rfl⟩

theorem C6_payload_too_large_witness :
    (ReadFrame NewFramer
        ⟨[0x11, 0, 0, 0, 0, 0, 0, 0, 0x40, 0, 1, 0, 0, 0, 0, 0xAA, 0xBB], Error.EOF⟩).2.2 =
        .ret (none, some (.framework .ClientMsgErrorCode "payload too large...")) ∧
      (ReadFrame NewFramer
        ⟨[0x11, 0, 0, 0, 0, 0, 0, 0, 0x40, 0, 1, 0, 0, 0, 0, 0xAA, 0xBB], Error.EOF⟩).2.1
        = ⟨[0xAA, 0xBB], Error.EOF⟩ ∧
      (ReadFrame NewFramer
        ⟨[0x11, 0, 0, 0, 0, 0, 0, 0, 0x40, 0, 1, 0, 0, 0, 0, 0xAA, 0xBB], Error.EOF⟩).1
        = NewFramer :=
  C6_payload_too_large NewFramer
    ⟨[0x11, 0, 0, 0, 0, 0, 0, 0, 0x40, 0, 1, 0, 0, 0, 0, 0xAA, 0xBB], Error.EOF⟩
    (by decide) (by decide) (by decide)

/-- When the stream ends right after a whole header that announces a non-empty
body, the body read of `ReadFrame` reads zero bytes and `ReadFrame` passes on
the `io.EOF` it gets. -/
theorem ReadFrame_eof_after_header (f : framer) (conn : Conn) (L : Nat) (hf : Inv f)
    (hh : HeaderAt conn.pending L) (hL : L ≤ MaxPayloadLength) (hpos : 0 < L)
    (hlen : conn.pending.length = 15) (heof : conn.closeErr = Error.EOF) :
    (ReadFrame f conn).2.2 = .ret (none, some Error.EOF) := by
  obtain ⟨h15, hmagic, hfield⟩ := hh
  obtain ⟨-, hbuf⟩ := grow_spec f L hf hL
  have hm : ¬ ((conn.pending.take 15).getD 0 0).val ≠ codec.Magic := by
    rw [take15_getD _ h15, hmagic]
    simp [codec.Magic]
  unfold ReadFrame
  rw [ReadFull_header conn h15]
  simp only [ne_eq, not_true_eq_false, or_self, if_false, take15_field, hfield, hm,
    show ¬ L > MaxPayloadLength from by omega,
    show ¬ L > (grow f L).buffer.length from by omega, codec.FrameHeadLen]
  rw [ReadFull_short _ _ (by simp; omega)]
  simp [hlen, heof]

/-- On an exhausted stream that was closed in order, `ReadFrame` reads zero
header bytes and returns `io.EOF`. -/
theorem ReadFrame_eof_between_frames (f : framer) (conn : Conn) (h0 : conn.pending = [])
    (heof : conn.closeErr = Error.EOF) :
    (ReadFrame f conn).2.2 = .ret (none, some Error.EOF) := by
  unfold ReadFrame
  rw [ReadFull_short conn _ (by simp [h0, codec.FrameHeadLen])]
  simp [h0, heof, codec.FrameHeadLen]

/-- When the stream ends inside the header, after one byte or more, `ReadFrame`
returns `io.ErrUnexpectedEOF`. -/
theorem ReadFrame_eof_inside_header (f : framer) (conn : Conn)
    (hpos : 0 < conn.pending.length) (hlt : conn.pending.length < 15)
    (heof : conn.closeErr = Error.EOF) :
    (ReadFrame f conn).2.2 = .ret (none, some Error.ErrUnexpectedEOF) := by
  unfold ReadFrame
  rw [ReadFull_short conn _ (by simp [codec.FrameHeadLen]; omega)]
  have hne : conn.pending.length ≠ codec.FrameHeadLen := by
    simp only [codec.FrameHeadLen]
    omega
  simp [hne, hpos, heof]

/-- C7, the failing case. The stream holds a whole header that announces one
body byte and then ends: `ReadFrame` on a new framer returns `io.EOF`, the error
that stands for a clean end of stream between frames. -/
theorem C7_eof_after_header_reported_clean :
    (ReadFrame NewFramer
        ⟨[0x11, 0, 0, 0, 0, 0, 0, 0, 0, 0, 1, 0, 0, 0, 0], Error.EOF⟩).2.2
      = .ret (none, some Error.EOF) :=
  ReadFrame_eof_after_header NewFramer _ 1 Inv_NewFramer (by decide) (by decide) (by decide)
    rfl rfl

end transport

/-! ## Round-robin balancer -/

namespace selector

/-- One turn of the wheel: the residues of `c, c + 1, ..., c + n - 1` modulo `n`
hit every index below `n` exactly once. -/
theorem count_cycle (n c i : Nat) (hn : 0 < n) (hi : i < n) :
    ((List.range n).map (fun t => (c + t) % n)).count i = 1 := by
  apply List.count_eq_one_of_mem
  · apply List.Nodup.map_on _ (List.nodup_range n)
    intro x hx y hy hxy
    rw [List.mem_range] at hx hy
    have h1 : x ≡ y [MOD n] := Nat.ModEq.add_left_cancel' c hxy
    exact Nat.ModEq.eq_of_lt_of_lt h1 hx hy
  · rw [List.mem_map]
    refine ⟨(i + n - c % n) % n, List.mem_range.mpr (Nat.mod_lt _ hn), ?_⟩
    have hr := Nat.mod_lt c hn
    have hd := Nat.div_add_mod c n
    have e : c + (i + n - c % n) = (i + n) + n * (c / n) := by omega
    rw [Nat.add_mod_mod, e, Nat.add_mul_mod_self_left, Nat.add_mod_right,
      Nat.mod_eq_of_lt hi]

/-- Over `k` turns every index below `n` comes up exactly `k` times. -/
theorem count_turns (n c i k : Nat) (hn : 0 < n) (hi : i < n) :
    ((List.range (k * n)).map (fun t => (c + t) % n)).count i = k := by
  induction k with
  | zero => simp
  | succ k ih =>
    have e : (k + 1) * n = k * n + n := by rw [Nat.add_mul, Nat.one_mul]
    rw [e, List.range_add, List.map_append, List.count_append, ih, List.map_map]
    have hf : ((fun t => (c + t) % n) ∘ fun x => k * n + x)
        = fun t => (c + k * n + t) % n := by
      funext t
      simp [Nat.add_assoc]
    rw [hf, count_cycle n (c + k * n) i hn hi]

/-- The index expression within range. -/
theorem index_lt {Node : Type} (nodes : List Node) (i : Nat) (h : i < nodes.length) :
    index nodes i = .ret nodes[i]? := by
  unfold index
  rw [List.getElem?_eq_getElem h]

/-- A `pick` call that does not take the reset branch advances the last index
by one modulo the node count and returns the node at the new index. -/
theorem pick_noReset {Node : Type} (rp : roundRobinPicker) (nodes : List Node)
    (now now2 : Time) (hn : 1 ≤ nodes.length) (hinv : PInv rp)
    (hno : ¬ resetCond rp nodes now) :
    pick rp nodes now now2 =
      ({ rp with lastIndex := (rp.lastIndex + 1) % nodes.length },
        .ret nodes[(rp.lastIndex + 1) % nodes.length]?) := by
  have hlen : nodes.length = rp.length := by
    by_contra h
    exact hno (Or.inr h)
  have hlt : rp.lastIndex < nodes.length := by
    rcases hinv with h | h <;> omega
  unfold pick
  rw [if_neg (by omega)]
  have hno2 : ¬ (Sub now rp.lastUpdateTime > rp.duration ∨ nodes.length ≠ rp.length) := hno
  simp only [hno2, if_false]
  by_cases hlast : rp.lastIndex = nodes.length - 1
  · have e : (rp.lastIndex + 1) % nodes.length = 0 := by
      have : rp.lastIndex + 1 = nodes.length := by omega
      rw [this, Nat.mod_self]
    rw [if_pos hlast, e, index_lt nodes 0 (by omega)]
  · have e : (rp.lastIndex + 1) % nodes.length = rp.lastIndex + 1 :=
      Nat.mod_eq_of_lt (by omega)
    rw [if_neg hlast, e, index_lt nodes _ (by omega)]

/-- Every `pick` call keeps the picker invariant. -/
theorem pick_PInv {Node : Type} (rp : roundRobinPicker) (nodes : List Node)
    (now now2 : Time) (hinv : PInv rp) : PInv (pick rp nodes now now2).1 := by
  unfold pick
  by_cases hne : nodes.length = 0
  · rw [if_pos hne]
    exact hinv
  · rw [if_neg hne]
    by_cases hreset : Sub now rp.lastUpdateTime > rp.duration ∨ nodes.length ≠ rp.length
    · simp only [hreset, if_true]
      by_cases hlast : 0 = nodes.length - 1
      · rw [if_pos hlast]
        exact Or.inl rfl
      · rw [if_neg hlast]
        right
        show 0 + 1 < nodes.length
        omega
    · simp only [hreset, if_false]
      have hlen : nodes.length = rp.length := by
        by_contra h
        exact hreset (Or.inr h)
      by_cases hlast : rp.lastIndex = nodes.length - 1
      · rw [if_pos hlast]
        exact Or.inl rfl
      · rw [if_neg hlast]
        right
        show rp.lastIndex + 1 < rp.length
        unfold PInv at hinv
        omega

/-- Every reachable picker satisfies the invariant. -/
theorem PInv_of_reachable {Node : Type} {rp : roundRobinPicker} (h : Reachable Node rp) :
    PInv rp := by
  induction h with
  | create t0 d n => exact Or.inl rfl
  | pick rp nodes now now2 _ ih => exact pick_PInv rp nodes now now2 ih

/-- A run without resets walks the indices `j+1, j+2, ...` modulo the node count,
and each call returns the node at the index it moved to. -/
theorem pickRun_noReset {Node : Type} (nodes : List Node) (hn : 1 ≤ nodes.length)
    (ts : List (Time × Time)) (rp : roundRobinPicker) (hinv : PInv rp)
    (hno : NoResetRun rp nodes ts) :
    (pickRun rp nodes ts).map (fun e => e.1.lastIndex) =
        (List.range ts.length).map (fun t => (rp.lastIndex + 1 + t) % nodes.length) ∧
      ∀ e ∈ pickRun rp nodes ts,
        e.1.lastIndex < nodes.length ∧ e.2 = .ret nodes[e.1.lastIndex]? := by
  induction ts generalizing rp with
  | nil => simp [pickRun]
  | cons t ts ih =>
    obtain ⟨h1, h2⟩ := hno
    have hp := pick_noReset rp nodes t.1 t.2 hn hinv h1
    have hinv2 := pick_PInv rp nodes t.1 t.2 hinv
    have ih2 := ih (pick rp nodes t.1 t.2).1 hinv2 h2
    have hmod : (rp.lastIndex + 1) % nodes.length < nodes.length := Nat.mod_lt _ (by omega)
    constructor
    · simp only [pickRun, List.map_cons, List.length_cons]
      rw [ih2.1, List.range_succ_eq_map, List.map_cons, List.map_map, hp]
      congr 1
      apply List.map_congr_left
      intro a _
      simp only [Function.comp, Nat.succ_eq_add_one]
      rw [Nat.add_assoc ((rp.lastIndex + 1) % nodes.length), Nat.mod_add_mod]
      congr 1
      omega
    · intro e he
      simp only [pickRun, List.mem_cons] at he
      rcases he with he | he
      · subst he
        rw [hp]
        exact ⟨hmod, rfl⟩
      · exact ih2.2 e he

/-- In a run without resets over distinct nodes, a call returns the node `x`
exactly when it moved to the index of `x`. -/
theorem count_returned {Node : Type} [DecidableEq Node] (nodes : List Node)
    (hd : nodes.Nodup) (l : List (roundRobinPicker × Outcome (Option Node)))
    (hl : ∀ e ∈ l, e.1.lastIndex < nodes.length ∧ e.2 = .ret nodes[e.1.lastIndex]?)
    (i : Nat) (x : Node) (hx : nodes[i]? = some x) :
    (l.map (fun e => e.2)).count (.ret (some x)) = (l.map (fun e => e.1.lastIndex)).count i := by
  rw [List.count_eq_countP, List.count_eq_countP, List.countP_map, List.countP_map]
  apply List.countP_congr
  intro e he
  obtain ⟨hlt, hret⟩ := hl e he
  simp only [Function.comp, beq_iff_eq, hret, Outcome.ret.injEq]
  constructor
  · intro h
    exact List.getElem?_inj hlt hd (h.trans hx.symm)
  · intro h
    rw [h, hx]

/-- C8. For a picker that `Balance` and earlier `pick` calls can have produced and
a node list of `n >= 1` nodes: over `k * n` consecutive `pick` calls none of
which takes the reset branch, every call returns the node at the index it moves
to, each index below `n` is moved to exactly `k` times, and so (the nodes being
distinct) each node is returned exactly `k` times. -/
theorem C8_round_robin_fairness {Node : Type} [DecidableEq Node] (rp : roundRobinPicker)
    (nodes : List Node) (k : Nat) (ts : List (Time × Time))
    (hr : Reachable Node rp) (hn : 1 ≤ nodes.length) (hlen : ts.length = k * nodes.length)
    (hno : NoResetRun rp nodes ts) :
    (∀ e ∈ pickRun rp nodes ts,
        e.1.lastIndex < nodes.length ∧ e.2 = .ret nodes[e.1.lastIndex]?) ∧
      (∀ i, i < nodes.length →
        ((pickRun rp nodes ts).map (fun e => e.1.lastIndex)).count i = k) ∧
      (nodes.Nodup → ∀ x ∈ nodes,
        ((pickRun rp nodes ts).map (fun e => e.2)).count (.ret (some x)) = k) := by
  obtain ⟨htrace, hret⟩ := pickRun_noReset nodes hn ts rp (PInv_of_reachable hr) hno
  have hcount : ∀ i, i < nodes.length →
      ((pickRun rp nodes ts).map (fun e => e.1.lastIndex)).count i = k := by
    intro i hi
    rw [htrace, hlen]
    exact count_turns nodes.length (rp.lastIndex + 1) i k (by omega) hi
  refine ⟨hret, hcount, ?_⟩
  intro hd x hx
  obtain ⟨i, hi⟩ := List.mem_iff_getElem?.mp hx
  have hlt : i < nodes.length := by
    by_contra h
    rw [List.getElem?_eq_none (by omega)] at hi
    cases hi
  rw [count_returned nodes hd _ hret i x hi]
  exact hcount i hlt

theorem C8_round_robin_fairness_witness :
    Reachable String ({ length := 2, lastUpdateTime := 0, duration := 100, lastIndex := 0 }) ∧
      NoResetRun { length := 2, lastUpdateTime := 0, duration := 100, lastIndex := 0 }
        ["10.0.0.1:80", "10.0.0.2:80"] [(1, 1), (2, 2), (3, 3), (4, 4)] ∧
      ((pickRun { length := 2, lastUpdateTime := 0, duration := 100, lastIndex := 0 }
        ["10.0.0.1:80", "10.0.0.2:80"] [(1, 1), (2, 2), (3, 3), (4, 4)]).map
          (fun e => e.2)).count (.ret (some "10.0.0.1:80")) = 2 :=
  ⟨Reachable.create 0 100 2, by decide,
    (C8_round_robin_fairness { length := 2, lastUpdateTime := 0, duration := 100, lastIndex := 0 }
      ["10.0.0.1:80", "10.0.0.2:80"] 2 [(1, 1), (2, 2), (3, 3), (4, 4)]
      (Reachable.create 0 100 2) (by decide) (by decide) (by decide)).2.2
      (by decide) "10.0.0.1:80" (by decide)⟩

/-- C9, the failing case. A picker that recorded one node is called with two
nodes: the node count differs, the reset branch runs, and the call then moves on
to index 1 and returns the second node instead of staying at index 0. -/
theorem C9_reset_returns_second_node :
    resetCond { length := 1, lastUpdateTime := 0, duration := 180000000000, lastIndex := 0 }
        ["10.0.0.1:80", "10.0.0.2:80"] 5 ∧
      pick { length := 1, lastUpdateTime := 0, duration := 180000000000, lastIndex := 0 }
        ["10.0.0.1:80", "10.0.0.2:80"] 5 6 =
        ({ length := 2, lastUpdateTime := 6, duration := 180000000000, lastIndex := 1 },
          .ret (some "10.0.0.2:80")) := by
  decide

/-- The first `pick` on a picker whose last index is zero. -/
theorem pick_from_zero {Node : Type} (rp : roundRobinPicker) (nodes : List Node)
    (now now2 : Time) (h0 : rp.lastIndex = 0) (hn : 1 ≤ nodes.length) :
    (pick rp nodes now now2).2 = (if nodes.length = 1 then .ret nodes[0]? else .ret nodes[1]?) ∧
      (pick rp nodes now now2).1.lastIndex = (if nodes.length = 1 then 0 else 1) := by
  unfold pick
  rw [if_neg (by omega)]
  by_cases hreset : Sub now rp.lastUpdateTime > rp.duration ∨ nodes.length ≠ rp.length
  · simp only [hreset, if_true]
    by_cases h1 : nodes.length = 1
    · rw [if_pos (by omega), if_pos h1, if_pos h1, index_lt nodes 0 (by omega)]
      exact ⟨rfl, rfl⟩
    · rw [if_neg (by omega), if_neg h1, if_neg h1, index_lt nodes (0 + 1) (by omega)]
      exact ⟨rfl, rfl⟩
  · simp only [hreset, if_false, h0]
    by_cases h1 : nodes.length = 1
    · rw [if_pos (by omega), if_pos h1, if_pos h1, index_lt nodes 0 (by omega)]
      exact ⟨rfl, rfl⟩
    · rw [if_neg (by omega), if_neg h1, if_neg h1, index_lt nodes (0 + 1) (by omega)]
      exact ⟨rfl, rfl⟩

/-- The call `Balance` for a name without a stored picker, when `pick` on the new picker
returns: the result is handed on and the picker is stored. -/
theorem Balance_new {Node : Type} (r : roundRobinBalancer) (serviceName : String)
    (nodes : List Node) (t0 now now2 : Time) (hnone : r.pickers serviceName = none)
    (node : Option Node)
    (h : (pick ⟨nodes.length, t0, r.duration, 0⟩ nodes now now2).2 = .ret node) :
    (Balance r serviceName nodes t0 now now2).2 = .ret node ∧
      (Balance r serviceName nodes t0 now now2).1.pickers serviceName =
        some (pick ⟨nodes.length, t0, r.duration, 0⟩ nodes now now2).1 := by
  unfold Balance
  rw [hnone]
  dsimp only
  split
  · rename_i picker1 node1 heq
    rw [heq] at h
    simp only [Outcome.ret.injEq] at h
    rw [heq, h]
    simp
  · rename_i picker1 heq
    rw [heq] at h
    cases h

/-- C10. For a service name without a stored picker, the first `Balance` call
stores a picker for the name; with two or more nodes it returns the node at
index 1 (and the stored picker is at index 1), with one node it returns the node
at index 0. -/
theorem C10_first_balance_picks_index_one {Node : Type} (r : roundRobinBalancer)
    (serviceName : String) (nodes : List Node) (t0 now now2 : Time)
    (hnone : r.pickers serviceName = none) :
    (2 ≤ nodes.length → ∃ x p, nodes[1]? = some x ∧
        (Balance r serviceName nodes t0 now now2).2 = .ret (some x) ∧
        (Balance r serviceName nodes t0 now now2).1.pickers serviceName = some p ∧
        p.lastIndex = 1) ∧
      (nodes.length = 1 → ∃ x p, nodes[0]? = some x ∧
        (Balance r serviceName nodes t0 now now2).2 = .ret (some x) ∧
        (Balance r serviceName nodes t0 now now2).1.pickers serviceName = some p ∧
        p.lastIndex = 0) := by
  constructor
  · intro hn
    obtain ⟨h2, h1⟩ := pick_from_zero
      { lastUpdateTime := t0, duration := r.duration, length := nodes.length, lastIndex := 0 }
      nodes now now2 rfl (by omega)
    rw [if_neg (by omega)] at h2 h1
    rw [List.getElem?_eq_getElem (by omega : 1 < nodes.length)] at h2
    obtain ⟨hb1, hb2⟩ := Balance_new r serviceName nodes t0 now now2 hnone _ h2
    exact ⟨nodes[1], _, List.getElem?_eq_getElem (by omega), hb1, hb2, h1⟩
  · intro hn
    obtain ⟨h2, h1⟩ := pick_from_zero
      { lastUpdateTime := t0, duration := r.duration, length := nodes.length, lastIndex := 0 }
      nodes now now2 rfl (by omega)
    rw [if_pos hn] at h2 h1
    rw [List.getElem?_eq_getElem (by omega : 0 < nodes.length)] at h2
    obtain ⟨hb1, hb2⟩ := Balance_new r serviceName nodes t0 now now2 hnone _ h2
    exact ⟨nodes[0], _, List.getElem?_eq_getElem (by omega), hb1, hb2, h1⟩

theorem C10_first_balance_picks_index_one_witness :
    (Balance newRoundRobinBalancer "hello.Greeter" ["10.0.0.1:80", "10.0.0.2:80", "10.0.0.3:80"]
        0 1 2).2 = .ret (some "10.0.0.2:80") ∧
      (Balance newRoundRobinBalancer "hello.Greeter" ["10.0.0.1:80"] 0 1 2).2
        = .ret (some "10.0.0.1:80") := by
  obtain ⟨x, p, hx, hres, -, -⟩ := (C10_first_balance_picks_index_one newRoundRobinBalancer
    "hello.Greeter" ["10.0.0.1:80", "10.0.0.2:80", "10.0.0.3:80"] 0 1 2 rfl).1 (by decide)
  obtain ⟨y, q, hy, hres1, -, -⟩ := (C10_first_balance_picks_index_one newRoundRobinBalancer
    "hello.Greeter" ["10.0.0.1:80"] 0 1 2 rfl).2 (by decide)
  cases hx
  cases hy
  exact ⟨hres, hres1⟩

end selector

/-! ## Response envelope -/

namespace transport

/-- C11. The response envelope of `addRspHeader(payload, err)`: with a nil error
the code is `OK` (zero), the message is `success` and the payload is carried
unchanged; with a `*codes.Error` (built by `codes.NewFrameworkError` or by
`codes.New`) the code and the message are those of the error; with any other
error the code is `ServerInternalErrorCode` and the message is the one of
`codes.ServerInternalError`, `internal error`. -/
theorem C11_addRspHeader_envelope (payload : Option (List Byte)) :
    addRspHeader payload none = ⟨payload, codes.Code.OK, "success"⟩ ∧
      (∀ code msg, addRspHeader payload (some (Error.framework code msg))
        = ⟨payload, code, msg⟩) ∧
      (∀ code msg, addRspHeader payload (some (Error.coded code msg))
        = ⟨payload, code, msg⟩) ∧
      (∀ e, codes.asError e = none →
        addRspHeader payload (some e)
          = ⟨payload, codes.Code.ServerInternalErrorCode, "internal error"⟩) := by
  refine ⟨rfl, fun _ _ => rfl, fun _ _ => rfl, ?_⟩
  intro e he
  simp only [addRspHeader, he]
  rfl

theorem C11_addRspHeader_envelope_witness :
    codes.asError (Error.plain "boom") = none ∧
      addRspHeader (some [1, 2]) (some (Error.plain "boom"))
        = ⟨some [1, 2], codes.Code.ServerInternalErrorCode, "internal error"⟩ :=
  ⟨rfl, (C11_addRspHeader_envelope (some [1, 2])).2.2.2 (Error.plain "boom") rfl⟩

end transport

/-! ## Server lifecycle -/

namespace novarpc

/-- C18, the failing case. After `Server.Close` the closing flag of the server is
`false`, whatever it was before; the flag of the service it closed is `true`. -/
theorem C18_server_close_clears_flag {Obj : Type} (s : Server Obj) :
    (Server.Close s).closing = false ∧ (Server.Close s).service.closing = true :=
  ⟨rfl, rfl⟩

end novarpc

/-! ## Serializers -/

namespace codec

/-- C19. For both serializers, Marshal of a nil object returns an error and
Unmarshal of nil or empty bytes returns an error, whatever the libraries behind
them do on other inputs. -/
theorem C19_serializers_reject_nil_and_empty {Obj : Type} (msgNil msgEmpty : String)
    (encode : Obj → Except Error (List Byte)) (decode : List Byte → Except Error Obj) :
    (∃ e, (pbSerialization msgNil msgEmpty encode decode).Marshal none = .error e) ∧
      (∃ e, (pbSerialization msgNil msgEmpty encode decode).Unmarshal [] = .error e) ∧
      (∃ e, (MsgpackSerialization msgNil msgEmpty encode decode).Marshal none = .error e) ∧
      (∃ e, (MsgpackSerialization msgNil msgEmpty encode decode).Unmarshal [] = .error e) :=
  ⟨⟨_, rfl⟩, ⟨_, rfl⟩, ⟨_, rfl⟩, ⟨_, rfl⟩⟩

end codec

/-! ## Framer buffer -/

namespace transport

/-- With the invariant, `ReadFrame` does not panic. -/
theorem ReadFrame_no_panic (f : framer) (conn : Conn) (hf : Inv f) :
    (ReadFrame f conn).2.2 ≠ .panic := by
  by_cases hgood : ∃ L, HeaderAt conn.pending L ∧ L ≤ MaxPayloadLength ∧
      15 + L ≤ conn.pending.length
  · obtain ⟨L, hh, hL, hlen⟩ := hgood
    rw [ReadFrame_ok f conn L hf hh hL hlen]
    exact fun h => Outcome.noConfusion h
  · obtain ⟨e, he⟩ := ReadFrame_err f conn hf hgood
    rw [he]
    exact fun h => Outcome.noConfusion h

/-- C20. Every framer reached from `NewFramer` by `ReadFrame` calls has a buffer
of `1024 * 2 ^ counter` bytes with a counter of at most 12; for every length of
at most 4 MiB the growth loop ends with a buffer of at least that length and
keeps the invariant; so the slice `buffer[:length]` is in range and `ReadFrame`
never panics. -/
theorem C20_buffer_invariant (f : framer) (hf : Reachable f) :
    (∃ c : Nat, c ≤ 12 ∧ f.counter = (c : Int) ∧ f.buffer.length = 1024 * 2 ^ c) ∧
      (∀ length, length ≤ MaxPayloadLength →
        length ≤ (grow f length).buffer.length ∧
        ∃ c : Nat, c ≤ 12 ∧ (grow f length).counter = (c : Int) ∧
          (grow f length).buffer.length = 1024 * 2 ^ c) ∧
      (∀ conn, (ReadFrame f conn).2.2 ≠ .panic) := by
  refine ⟨hf.inv, ?_, fun conn => ReadFrame_no_panic f conn hf.inv⟩
  intro length hl
  obtain ⟨h1, h2⟩ := grow_spec f length hf.inv hl
  exact ⟨h2, h1⟩

theorem C20_buffer_invariant_witness :
    Reachable NewFramer ∧ (4194304 : Nat) ≤ MaxPayloadLength ∧
      4194304 ≤ (grow NewFramer 4194304).buffer.length :=
  ⟨Reachable.new, by decide,
    ((C20_buffer_invariant NewFramer Reachable.new).2.1 4194304 (by decide)).1⟩

end transport

/-! ## Dispatcher -/

namespace novarpc

/-- For a request whose path parses to a method without a handler, `Handle`
returns the plain error `handlers is nil`, and the envelope built from it
carries `ServerInternalErrorCode` and `internal error`. -/
theorem Handle_unknown_method {Obj : Type} (env : Env Obj) (s : service Obj) (ctx : Context)
    (reqbuf : List Byte) (request : protocol.Request) (svc method : String)
    (hreq : env.protoUnmarshal reqbuf = .ok request)
    (hpath : utils.ParseServicePath request.ServicePath = .ok (svc, method))
    (hnone : s.handlers method = none) :
    service.Handle env s ctx reqbuf = .ret (none, some (Error.plain "handlers is nil")) ∧
      transport.addRspHeader none (some (Error.plain "handlers is nil"))
        = ⟨none, codes.Code.ServerInternalErrorCode, "internal error"⟩ := by
  refine ⟨?_, rfl⟩
  simp only [service.Handle, hreq, hpath, hnone]

/-- C12, the failing case. A request for `/hello.Greeter/NotAMethod` reaches a
service that has the one method `SayHello`: the path parses, no handler is
found, `Handle` returns the plain error `handlers is nil`, and the envelope the
server transport builds from it has the code `ServerInternalErrorCode` and the
message `internal error`. -/
theorem C12_unknown_method_answered_as_internal_error :
    utils.ParseServicePath "/hello.Greeter/NotAMethod"
        = .ok ("hello.Greeter", "NotAMethod") ∧
      (testdata.greeter "SayHello" testdata.SayHello).handlers "NotAMethod" = none ∧
      service.Handle (testdata.stubEnv "/hello.Greeter/NotAMethod")
          (testdata.greeter "SayHello" testdata.SayHello) ⟨[], none⟩ [1]
        = .ret (none, some (Error.plain "handlers is nil")) ∧
      transport.addRspHeader none (some (Error.plain "handlers is nil"))
        = ⟨none, codes.Code.ServerInternalErrorCode, "internal error"⟩ :=
  ⟨rfl, rfl,
    (Handle_unknown_method (testdata.stubEnv "/hello.Greeter/NotAMethod")
      (testdata.greeter "SayHello" testdata.SayHello) ⟨[], none⟩ [1] _
      "hello.Greeter" "NotAMethod" rfl rfl rfl).1, rfl⟩

/-- The handler built for a method returns a nil error whenever the method
returns, whatever error the method returned, when there is no interceptor. -/
theorem methodHandler_drops_error {Obj : Type} (method : Method Obj) (ctx : Context)
    (req : Obj) (rsp : Option Obj) (err : Option Error)
    (h : method ctx req = .ret (rsp, err)) :
    methodHandler method ctx (.ok req) [] = .ret (rsp, none) := by
  simp [methodHandler, h]

/-- C13, the failing case. The user method returns the error `boom`; the handler
built by `getServiceMethods` returns a nil error, with an empty interceptor list
and with an interceptor that calls the next handler, and `Handle` answers with
a payload and no error, so that the envelope says `OK` and `success`. -/
theorem C13_method_error_is_dropped :
    testdata.Failing ⟨[], none⟩ "hello" = .ret (none, some (Error.plain "boom")) ∧
      methodHandler testdata.Failing ⟨[], none⟩ (.ok "hello") [] = .ret (none, none) ∧
      methodHandler testdata.Failing ⟨[], none⟩ (.ok "hello") [testdata.passThrough]
        = .ret (none, none) ∧
      service.Handle (testdata.stubEnv "/hello.Greeter/SayHello")
          (testdata.greeter "SayHello" testdata.Failing) ⟨[], none⟩ [1]
        = .ret (some [], none) ∧
      transport.addRspHeader (some []) none = ⟨some [], codes.Code.OK, "success"⟩ :=
  ⟨rfl, rfl, rfl, rfl, rfl⟩

end novarpc

/-! ## Accept loop -/

namespace transport

/-- Every sleep of the accept loop lies between 5 ms and 1 s, when the loop
starts from a delay that is zero or between 5 ms and 1 s. -/
theorem serveLoop_sleeps_bounded (events : List AcceptEvent) (tempDelay : Int)
    (h : tempDelay = 0 ∨ (5 * Millisecond ≤ tempDelay ∧ tempDelay ≤ 1 * Second)) :
    ∀ d ∈ (serveLoop tempDelay events).sleeps, 5 * Millisecond ≤ d ∧ d ≤ 1 * Second := by
  induction events generalizing tempDelay with
  | nil => simp [serveLoop]
  | cons ev rest ih =>
    cases ev with
    | done => simp [serveLoop]
    | failed err => simp [serveLoop]
    | accepted ka =>
      cases ka with
      | none =>
        simp only [serveLoop]
        exact ih tempDelay h
      | some err => simp [serveLoop]
    | temporary err =>
      simp only [serveLoop, Millisecond, Second] at *
      intro d hd
      rw [List.mem_cons] at hd
      rcases hd with hd | hd
      · subst hd
        split_ifs <;> omega
      · refine ih _ ?_ d hd
        right
        split_ifs <;> omega

/-- C16, the failing case. The loop meets a transient error, then accepts a
connection, then meets a transient error again: it sleeps 5 ms and then 10 ms;
the accepted connection has not reset the delay. -/
theorem C16_delay_not_reset_by_accept :
    serve Error.EOF true
        [AcceptEvent.temporary (Error.conn 1), AcceptEvent.accepted none,
          AcceptEvent.temporary (Error.conn 1)]
      = { sleeps := [5 * Millisecond, 10 * Millisecond], spawned := 1, result := none } := by
  decide

end transport

/-! ## Client -/

namespace client

/-- C17 as stated fails: a new client invoked on `/hello.Greeter/SayHello` with
no option has another service name and another method afterwards. -/
theorem C17_counterexample :
    (Invoke (fun _ _ _ => none) NewDefaultClient ⟨[], none⟩ "/hello.Greeter/SayHello"
        []).client.opts.serviceName ≠ NewDefaultClient.opts.serviceName ∧
      (Invoke (fun _ _ _ => none) NewDefaultClient ⟨[], none⟩ "/hello.Greeter/SayHello"
        []).client.opts.method ≠ NewDefaultClient.opts.method := by
  decide

/-- C17, amended. `Invoke` applies the options to the options record of the
client; when the path parses, it writes the parsed service name and method both
to that record and to the client-stream record of the call; when the path does
not parse, it returns the parse error and the record is as the options left
it. -/
theorem C17_invoke_writes_client_record
    (chain : Context → Options → ClientStream → Option Error) (c : defaultClient)
    (ctx : Context) (path : String) (opts : List Opt) :
    (∀ svc m, utils.ParseServicePath path = .ok (svc, m) →
      (Invoke chain c ctx path opts).client.opts
          = { opts.foldl (fun o f => f o) c.opts with serviceName := svc, method := m } ∧
        (Invoke chain c ctx path opts).clientStream = ⟨svc, m⟩) ∧
      (∀ e, utils.ParseServicePath path = .error e →
        (Invoke chain c ctx path opts).client.opts = opts.foldl (fun o f => f o) c.opts ∧
        (Invoke chain c ctx path opts).err = some e) := by
  constructor
  · intro svc m h
    simp [Invoke, h]
  · intro e h
    simp [Invoke, h]

theorem C17_invoke_writes_client_record_witness :
    utils.ParseServicePath "/hello.Greeter/SayHello" = .ok ("hello.Greeter", "SayHello") ∧
      (Invoke (fun _ _ _ => none) NewDefaultClient ⟨[], none⟩ "/hello.Greeter/SayHello"
        [WithTarget "127.0.0.1:8000"]).client.opts
        = { [WithTarget "127.0.0.1:8000"].foldl (fun o f => f o) NewDefaultClient.opts with
            serviceName := "hello.Greeter", method := "SayHello" } :=
  ⟨rfl, ((C17_invoke_writes_client_record (fun _ _ _ => none) NewDefaultClient ⟨[], none⟩
    "/hello.Greeter/SayHello" [WithTarget "127.0.0.1:8000"]).1
      "hello.Greeter" "SayHello" rfl).1⟩

end client

/-! ## Connection worker -/

namespace transport

/-- The connection after `ReadFull` has no more pending bytes than before. -/
theorem ReadFull_pending_le (conn : Conn) (buf : List Byte) :
    (ReadFull conn buf).1.pending.length ≤ conn.pending.length := by
  unfold ReadFull
  split
  · exact le_refl _
  · split
    · simp
    · simp

/-- A `ReadFrame` call that returns no error has consumed a header. -/
theorem ReadFrame_consumes (f : framer) (conn : Conn) (x : Option (List Byte))
    (h : (ReadFrame f conn).2.2 = .ret (x, none)) :
    (ReadFrame f conn).2.1.pending.length + 15 ≤ conn.pending.length := by
  by_cases h15 : 15 ≤ conn.pending.length
  · unfold ReadFrame
    rw [ReadFull_header conn h15]
    simp only [ne_eq, not_true_eq_false, or_self, if_false, codec.FrameHeadLen]
    have hdrop : (conn.pending.drop 15).length + 15 ≤ conn.pending.length := by
      simp only [List.length_drop]
      omega
    split
    · exact hdrop
    · split
      · exact hdrop
      · split
        · exact hdrop
        · have hle := ReadFull_pending_le
            ({ conn with pending := conn.pending.drop 15 } : Conn)
            ((grow f (codec.beUint32 (((conn.pending.take 15).drop 7).take 4))).buffer.take
              (codec.beUint32 (((conn.pending.take 15).drop 7).take 4)))
          rcases hR : ReadFull ({ conn with pending := conn.pending.drop 15 } : Conn)
            ((grow f (codec.beUint32 (((conn.pending.take 15).drop 7).take 4))).buffer.take
              (codec.beUint32 (((conn.pending.take 15).drop 7).take 4)))
            with ⟨conn2, body, num2, err2⟩
          rw [hR] at hle
          simp only at hle
          dsimp only
          split
          · exact le_trans (Nat.add_le_add_right hle 15) hdrop
          · exact le_trans (Nat.add_le_add_right hle 15) hdrop
  · exfalso
    revert h
    unfold ReadFrame
    rw [ReadFull_short conn _ (by simp [codec.FrameHeadLen]; omega)]
    have hne : conn.pending.length ≠ codec.FrameHeadLen := by
      simp only [codec.FrameHeadLen]
      omega
    simp [hne]

/-- The call `read` in terms of the three results of `ReadFrame`. -/
theorem read_eq (c : connWrapper) :
    read c = ({ c with framer := (ReadFrame c.framer c.conn).1,
                       conn := (ReadFrame c.framer c.conn).2.1 },
      match (ReadFrame c.framer c.conn).2.2 with
      | .panic => .panic
      | .ret (request, err) => if err ≠ none then .ret (none, err) else .ret (request, none)) := by
  unfold read
  rcases ReadFrame c.framer c.conn with ⟨f1, conn1, out⟩
  cases out with
  | panic => rfl
  | ret v =>
    obtain ⟨request, err⟩ := v
    dsimp only
    split <;> rfl

/-- A `read` call that returns no error has consumed a header. -/
theorem read_consumes (c c1 : connWrapper) (frame : Option (List Byte))
    (h : read c = (c1, .ret (frame, none))) :
    c1.conn.pending.length + 15 ≤ c.conn.pending.length := by
  rw [read_eq] at h
  simp only [Prod.mk.injEq] at h
  obtain ⟨hc, hout⟩ := h
  subst hc
  rcases hR : (ReadFrame c.framer c.conn).2.2 with v | _
  · obtain ⟨request, err⟩ := v
    rw [hR] at hout
    dsimp only at hout
    cases err with
    | some e => simp at hout
    | none => exact ReadFrame_consumes c.framer c.conn request hR
  · rw [hR] at hout
    cases hout

/-- The call `write` returns no error, and changes neither the read side, nor
the framer, nor the closed flag of the connection. -/
theorem write_spec (c : connWrapper) (rsp : Option (List Byte)) :
    (write c rsp).2 = none ∧ (write c rsp).1.conn = c.conn ∧
      (write c rsp).1.framer = c.framer ∧ (write c rsp).1.closed = c.closed ∧
      (write c rsp).1.writeErr = c.writeErr ∧
      (write c rsp).1.written =
        (match c.writeErr with
          | some _ => c.written
          | none => c.written ++ [rsp.getD []]) := by
  unfold write connWrite
  rcases h : c.writeErr with _ | e <;> simp [h]

/-- The loop of `handleConn` ends within one round more than there are pending
bytes. -/
theorem handleConnLoop_total (protoMarshal : protocol.Response → Except Error (List Byte))
    (s : serverTransport) (ctx : Context) (done : Nat → Bool) (fuel : Nat) :
    ∀ (i : Nat) (c : connWrapper), c.conn.pending.length < fuel →
      ∃ r, handleConnLoop protoMarshal s ctx done fuel i c = some r := by
  induction fuel with
  | zero =>
    intro i c h
    omega
  | succ fuel ih =>
    intro i c h
    unfold handleConnLoop
    by_cases hd : done i = true
    · rw [if_pos hd]
      exact ⟨_, rfl⟩
    · rw [if_neg hd]
      rcases hr : read c with ⟨c1, out⟩
      cases out with
      | panic => exact ⟨_, rfl⟩
      | ret v =>
        obtain ⟨frame, err⟩ := v
        dsimp only
        by_cases he : err = some Error.EOF
        · rw [if_pos he]
          exact ⟨_, rfl⟩
        · rw [if_neg he]
          by_cases hn : err ≠ none
          · rw [if_pos hn]
            exact ⟨_, rfl⟩
          · rw [if_neg hn]
            have hnone : err = none := not_not.mp hn
            subst hnone
            have hcons := read_consumes c c1 frame hr
            cases hh : handle protoMarshal s ctx (frame.getD []) with
            | panic => exact ⟨_, rfl⟩
            | ret w =>
              obtain ⟨rsp, herr⟩ := w
              dsimp only
              obtain ⟨hw2, hwc, -, -, -, -⟩ := write_spec c1 rsp
              rcases hwr : write c1 rsp with ⟨c2, werr⟩
              rw [hwr] at hw2 hwc
              simp only at hw2 hwc
              subst hw2
              simp only [ne_eq, not_true_eq_false, if_false]
              apply ih
              rw [hwc]
              omega

/-- The call `read` on a connection whose stream starts with a whole frame. -/
theorem read_ok (c : connWrapper) (L : Nat) (hinv : Inv c.framer)
    (hh : HeaderAt c.conn.pending L) (hL : L ≤ MaxPayloadLength)
    (hlen : 15 + L ≤ c.conn.pending.length) :
    ∃ c1, read c = (c1, .ret (some (c.conn.pending.take (15 + L)), none)) ∧
      c1.conn = { c.conn with pending := c.conn.pending.drop (15 + L) } ∧
      Inv c1.framer ∧ c1.written = c.written ∧ c1.writeErr = c.writeErr ∧
      c1.closed = c.closed := by
  have hI := ReadFrame_Inv c.framer c.conn hinv
  rw [read_eq]
  rw [ReadFrame_ok c.framer c.conn L hinv hh hL hlen] at hI ⊢
  exact ⟨_, rfl, rfl, hI, rfl, rfl, rfl⟩

/-- The call `read` on an exhausted stream that was closed in order. -/
theorem read_eof (c : connWrapper) (h0 : c.conn.pending = [])
    (heof : c.conn.closeErr = Error.EOF) :
    read c = ({ c with conn := { c.conn with pending := [] } }, .ret (none, some Error.EOF)) := by
  have hR : ReadFrame c.framer c.conn
      = (c.framer, { c.conn with pending := [] }, .ret (none, some Error.EOF)) := by
    unfold ReadFrame
    rw [ReadFull_short c.conn _ (by simp [h0, codec.FrameHeadLen])]
    simp [h0, heof, codec.FrameHeadLen]
  rw [read_eq, hR]
  rfl

/-- When the handler panics, `handle` panics. -/
theorem handle_panic (protoMarshal : protocol.Response → Except Error (List Byte))
    (s : serverTransport) (ctx : Context) (frame : List Byte)
    (hp : s.opts.Handler ctx (frame.drop codec.FrameHeadLen) = .panic) :
    handle protoMarshal s ctx frame = .panic := by
  unfold handle codec.Decode
  by_cases h : frame.length < codec.FrameHeadLen
  · simp [h]
  · simp [h, hp]

/-- A round of the loop in which a frame is read and the handler panics ends the
loop as a panic, with nothing written. -/
theorem handleConnLoop_panic (protoMarshal : protocol.Response → Except Error (List Byte))
    (s : serverTransport) (ctx : Context) (done : Nat → Bool) (fuel i : Nat)
    (c c1 : connWrapper) (frame : List Byte) (hd : done i = false)
    (hr : read c = (c1, .ret (some frame, none)))
    (hp : s.opts.Handler ctx (frame.drop codec.FrameHeadLen) = .panic) :
    handleConnLoop protoMarshal s ctx done (fuel + 1) i c = some (c1, .panic) := by
  have hh := handle_panic protoMarshal s ctx frame hp
  unfold handleConnLoop
  simp [hd, hr, hh]

/-- A round of the loop in which a frame is read and handled goes on to the
next round, whatever `conn.Write` reported. -/
theorem handleConnLoop_round (protoMarshal : protocol.Response → Except Error (List Byte))
    (s : serverTransport) (ctx : Context) (done : Nat → Bool) (fuel i : Nat)
    (c c1 : connWrapper) (frame : List Byte) (rsp : Option (List Byte)) (e : Option Error)
    (hd : done i = false) (hr : read c = (c1, .ret (some frame, none)))
    (hh : handle protoMarshal s ctx frame = .ret (rsp, e)) :
    handleConnLoop protoMarshal s ctx done (fuel + 1) i c
      = handleConnLoop protoMarshal s ctx done fuel (i + 1) (write c1 rsp).1 := by
  have hw := (write_spec c1 rsp).1
  conv_lhs => unfold handleConnLoop
  simp [hd, hr, hh, hw]

/-- A round of the loop on an exhausted stream that was closed in order ends the
loop with a nil error. -/
theorem handleConnLoop_eof (protoMarshal : protocol.Response → Except Error (List Byte))
    (s : serverTransport) (ctx : Context) (done : Nat → Bool) (fuel i : Nat)
    (c : connWrapper) (hd : done i = false) (h0 : c.conn.pending = [])
    (heof : c.conn.closeErr = Error.EOF) :
    handleConnLoop protoMarshal s ctx done (fuel + 1) i c
      = some ({ c with conn := { c.conn with pending := [] } }, .ret none) := by
  unfold handleConnLoop
  simp [hd, read_eof c h0 heof]

/-- C14 as stated fails: the connection delivers one whole request and the user
method panics; `handleConn` ends as a panic, it has written no response, and the
connection is closed. -/
theorem C14_counterexample :
    ∃ c1, handleConn testdata.stubMarshal
        (testdata.greeterTransport "SayHello" testdata.Panicking) ⟨[], none⟩
        (fun _ => false) (wrapConn ⟨testdata.frame1 0xAA, Error.EOF⟩ none)
      = some (c1, .panic) ∧ c1.written = [] ∧ c1.closed = true := by
  obtain ⟨c1, hr, -, -, hw, -, -⟩ :=
    read_ok (wrapConn ⟨testdata.frame1 0xAA, Error.EOF⟩ none) 1 Inv_NewFramer
      (by decide) (by decide) (by decide)
  have hl := handleConnLoop_panic testdata.stubMarshal
    (testdata.greeterTransport "SayHello" testdata.Panicking) ⟨[], none⟩ (fun _ => false)
    16 0 _ c1 _ rfl hr rfl
  refine ⟨{ c1 with closed := true }, ?_, hw, rfl⟩
  unfold handleConn
  have hf : (wrapConn ⟨testdata.frame1 0xAA, Error.EOF⟩ none).conn.pending.length + 1
      = 16 + 1 := rfl
  rw [hf, hl]

/-- C14, amended. `handleConn` has no recovery: in a round in which a frame is
read and the handler panics, the loop ends as a panic with nothing written for
that request, and when this is the first round the panic is the outcome of
`handleConn`; every run of `handleConn` ends, as a return or as a panic, and the
connection is closed at its end. -/
theorem C14_panic_propagates_connection_closed
    (protoMarshal : protocol.Response → Except Error (List Byte))
    (s : serverTransport) (ctx : Context) (done : Nat → Bool) (c : connWrapper) :
    (∃ c1 r, handleConn protoMarshal s ctx done c = some (c1, r) ∧ c1.closed = true) ∧
      (∀ (fuel i : Nat) (c0 c1 : connWrapper) (frame : List Byte), done i = false →
        read c0 = (c1, .ret (some frame, none)) →
        s.opts.Handler ctx (frame.drop codec.FrameHeadLen) = .panic →
        handleConnLoop protoMarshal s ctx done (fuel + 1) i c0 = some (c1, .panic) ∧
          c1.written = c0.written) ∧
      (∀ (c1 : connWrapper) (frame : List Byte), done 0 = false →
        read c = (c1, .ret (some frame, none)) →
        s.opts.Handler ctx (frame.drop codec.FrameHeadLen) = .panic →
        handleConn protoMarshal s ctx done c = some ({ c1 with closed := true }, .panic)) := by
  refine ⟨?_, ?_, ?_⟩
  · obtain ⟨r, hr⟩ := handleConnLoop_total protoMarshal s ctx done
      (c.conn.pending.length + 1) 0 c (by omega)
    obtain ⟨c1, out⟩ := r
    refine ⟨{ c1 with closed := true }, out, ?_, rfl⟩
    unfold handleConn
    rw [hr]
  · intro fuel i c0 c1 frame hd hr hp
    refine ⟨handleConnLoop_panic protoMarshal s ctx done fuel i c0 c1 frame hd hr hp, ?_⟩
    rw [read_eq] at hr
    simp only [Prod.mk.injEq] at hr
    rw [← hr.1]
  · intro c1 frame hd hr hp
    unfold handleConn
    rw [handleConnLoop_panic protoMarshal s ctx done _ 0 c c1 frame hd hr hp]

theorem C14_panic_propagates_connection_closed_witness :
    ∃ c1 : connWrapper, handleConn testdata.stubMarshal
        (testdata.greeterTransport "SayHello" testdata.Panicking) ⟨[], none⟩
        (fun _ => false) (wrapConn ⟨testdata.frame1 0xBB, Error.EOF⟩ none)
      = some ({ c1 with closed := true }, .panic) := by
  obtain ⟨c1, hr, -, -, -, -, -⟩ :=
    read_ok (wrapConn ⟨testdata.frame1 0xBB, Error.EOF⟩ none) 1 Inv_NewFramer
      (by decide) (by decide) (by decide)
  exact ⟨c1, (C14_panic_propagates_connection_closed testdata.stubMarshal
    (testdata.greeterTransport "SayHello" testdata.Panicking) ⟨[], none⟩
    (fun _ => false) (wrapConn ⟨testdata.frame1 0xBB, Error.EOF⟩ none)).2.2 c1 _ rfl hr rfl⟩

/-- A round of the loop on a stream that starts with a whole frame, when
`handle` returns: the loop goes on with the frame consumed, and the response is
on the connection only if `conn.Write` did not fail. -/
theorem handleConnLoop_served (protoMarshal : protocol.Response → Except Error (List Byte))
    (s : serverTransport) (ctx : Context) (done : Nat → Bool) (fuel i : Nat)
    (c : connWrapper) (L : Nat) (rsp : Option (List Byte)) (e : Option Error)
    (hd : done i = false) (hinv : Inv c.framer) (hh : HeaderAt c.conn.pending L)
    (hL : L ≤ MaxPayloadLength) (hlen : 15 + L ≤ c.conn.pending.length)
    (hres : handle protoMarshal s ctx (c.conn.pending.take (15 + L)) = .ret (rsp, e)) :
    ∃ c2, handleConnLoop protoMarshal s ctx done (fuel + 1) i c
        = handleConnLoop protoMarshal s ctx done fuel (i + 1) c2 ∧
      c2.conn = { c.conn with pending := c.conn.pending.drop (15 + L) } ∧
      Inv c2.framer ∧ c2.writeErr = c.writeErr ∧ c2.closed = c.closed ∧
      c2.written =
        (match c.writeErr with
          | some _ => c.written
          | none => c.written ++ [rsp.getD []]) := by
  obtain ⟨c1, hr, hconn, hinv1, hwr, hwe, hcl⟩ := read_ok c L hinv hh hL hlen
  obtain ⟨-, w1, w2, w3, w4, w5⟩ := write_spec c1 rsp
  refine ⟨(write c1 rsp).1,
    handleConnLoop_round protoMarshal s ctx done fuel i c c1 _ rsp e hd hr hres, ?_, ?_, ?_, ?_, ?_⟩
  · rw [w1, hconn]
  · rw [w2]
    exact hinv1
  · rw [w4, hwe]
  · rw [w3, hcl]
  · rw [w5, hwe, hwr]

/-- C15, the failing case. Every `Write` on the connection fails, and the stream
holds two whole requests and then ends: `conn.Write` reports its error, `write`
returns nil, and `handleConn` goes on after the failed write, reads and handles
the second request too, and returns nil at the end of the stream. -/
theorem C15_write_error_ignored :
    (connWrite (wrapConn ⟨testdata.frame1 0xAA ++ testdata.frame1 0xBB, Error.EOF⟩
        (some (Error.conn 7))) (some [1])).2 = some (Error.conn 7) ∧
      (write (wrapConn ⟨testdata.frame1 0xAA ++ testdata.frame1 0xBB, Error.EOF⟩
        (some (Error.conn 7))) (some [1])).2 = none ∧
      ∃ c1, handleConn testdata.stubMarshal
          (testdata.greeterTransport "SayHello" testdata.SayHello) ⟨[], none⟩
          (fun _ => false)
          (wrapConn ⟨testdata.frame1 0xAA ++ testdata.frame1 0xBB, Error.EOF⟩
            (some (Error.conn 7)))
        = some (c1, .ret none) ∧ c1.conn.pending = [] ∧ c1.written = [] ∧
          c1.closed = true := by
  refine ⟨rfl, rfl, ?_⟩
  obtain ⟨c2, e1, hc2, hi2, hwe2, -, hwr2⟩ := handleConnLoop_served testdata.stubMarshal
    (testdata.greeterTransport "SayHello" testdata.SayHello) ⟨[], none⟩ (fun _ => false)
    32 0 (wrapConn ⟨testdata.frame1 0xAA ++ testdata.frame1 0xBB, Error.EOF⟩
      (some (Error.conn 7))) 1 _ _ rfl Inv_NewFramer (by decide) (by decide) (by decide) rfl
  have hp2 : c2.conn.pending = testdata.frame1 0xBB := by
    rw [hc2]
    rfl
  obtain ⟨c3, e2, hc3, -, hwe3, -, hwr3⟩ := handleConnLoop_served testdata.stubMarshal
    (testdata.greeterTransport "SayHello" testdata.SayHello) ⟨[], none⟩ (fun _ => false)
    31 1 c2 1 _ _ rfl hi2 (by rw [hp2]; decide) (by decide) (by rw [hp2]; decide)
    (by rw [hp2]; rfl)
  have hp3 : c3.conn.pending = [] := by
    rw [hc3, hp2]
    rfl
  have he3 : c3.conn.closeErr = Error.EOF := by
    rw [hc3, hc2]
    rfl
  have e3 := handleConnLoop_eof testdata.stubMarshal
    (testdata.greeterTransport "SayHello" testdata.SayHello) ⟨[], none⟩ (fun _ => false)
    30 2 c3 rfl hp3 he3
  refine ⟨{ c3 with conn := { c3.conn with pending := [] }, closed := true }, ?_, rfl, ?_, rfl⟩
  · unfold handleConn
    have hf : (wrapConn ⟨testdata.frame1 0xAA ++ testdata.frame1 0xBB, Error.EOF⟩
        (some (Error.conn 7))).conn.pending.length + 1 = 32 + 1 := rfl
    rw [hf, e1, e2, e3]
  · show c3.written = []
    rw [hwr3, hwe2, hwr2]
    rfl

end transport

/-! ## Picker safety -/

namespace selector

/-- C21. For every picker that `Balance` and earlier `pick` calls can have
produced and every node list: on an empty list `pick` returns nil and leaves the
picker as it was; on a non-empty list it does not panic, it returns a node (not
nil), namely the node at the new last index, that index is below the number of
nodes, and the recorded length is the number of nodes afterwards. -/
theorem C21_pick_in_range {Node : Type} (rp : roundRobinPicker) (nodes : List Node)
    (now now2 : Time) (hr : Reachable Node rp) :
    (nodes.length = 0 → pick rp nodes now now2 = (rp, .ret none)) ∧
      (nodes.length ≠ 0 → ∃ x,
        (pick rp nodes now now2).2 = .ret (some x) ∧
        nodes[(pick rp nodes now now2).1.lastIndex]? = some x ∧
        (pick rp nodes now now2).1.lastIndex < nodes.length ∧
        (pick rp nodes now now2).1.length = nodes.length) := by
  have hinv := PInv_of_reachable hr
  constructor
  · intro h0
    unfold pick
    rw [if_pos h0]
  · intro hne
    unfold pick
    rw [if_neg hne]
    by_cases hreset : Sub now rp.lastUpdateTime > rp.duration ∨ nodes.length ≠ rp.length
    · simp only [hreset, if_true]
      by_cases hlast : 0 = nodes.length - 1
      · rw [if_pos hlast, index_lt nodes 0 (by omega)]
        exact ⟨nodes[0], by rw [List.getElem?_eq_getElem], by rw [List.getElem?_eq_getElem],
          by show 0 < nodes.length; omega, rfl⟩
      · rw [if_neg hlast, index_lt nodes (0 + 1) (by omega)]
        have h1 : 0 + 1 < nodes.length := by omega
        exact ⟨nodes[0 + 1], by rw [List.getElem?_eq_getElem],
          by rw [List.getElem?_eq_getElem], h1, rfl⟩
    · simp only [hreset, if_false]
      have hlen : nodes.length = rp.length := by
        by_contra h
        exact hreset (Or.inr h)
      have hlt : rp.lastIndex < nodes.length := by
        rcases hinv with h | h <;> omega
      by_cases hlast : rp.lastIndex = nodes.length - 1
      · rw [if_pos hlast, index_lt nodes 0 (by omega)]
        exact ⟨nodes[0], by rw [List.getElem?_eq_getElem], by rw [List.getElem?_eq_getElem],
          by show 0 < nodes.length; omega, hlen.symm⟩
      · rw [if_neg hlast, index_lt nodes (rp.lastIndex + 1) (by omega)]
        have h1 : rp.lastIndex + 1 < nodes.length := by omega
        exact ⟨nodes[rp.lastIndex + 1], by rw [List.getElem?_eq_getElem],
          by rw [List.getElem?_eq_getElem], h1, hlen.symm⟩

theorem C21_pick_in_range_witness :
    Reachable String ({ length := 3, lastUpdateTime := 0, duration := 100, lastIndex := 0 }) ∧
      ∃ x, (pick { length := 3, lastUpdateTime := 0, duration := 100, lastIndex := 0 }
          ["10.0.0.1:80", "10.0.0.2:80"] 1 2).2 = .ret (some x) ∧
        ["10.0.0.1:80", "10.0.0.2:80"][(pick
          { length := 3, lastUpdateTime := 0, duration := 100, lastIndex := 0 }
          ["10.0.0.1:80", "10.0.0.2:80"] 1 2).1.lastIndex]? = some x ∧
        (pick { length := 3, lastUpdateTime := 0, duration := 100, lastIndex := 0 }
          ["10.0.0.1:80", "10.0.0.2:80"] 1 2).1.lastIndex < 2 ∧
        (pick { length := 3, lastUpdateTime := 0, duration := 100, lastIndex := 0 }
          ["10.0.0.1:80", "10.0.0.2:80"] 1 2).1.length = 2 :=
  ⟨Reachable.create 0 100 3,
    (C21_pick_in_range { length := 3, lastUpdateTime := 0, duration := 100, lastIndex := 0 }
      ["10.0.0.1:80", "10.0.0.2:80"] 1 2 (Reachable.create 0 100 3)).2 (by decide)⟩

end selector

/-! ## Client call options -/

namespace client

/-- Applying a list of options that ends with `WithSerializationType t`. -/
theorem foldl_serializationType (opts : List Opt) (t : String) (o : Options) :
    (opts ++ [WithSerializationType t]).foldl (fun o f => f o) o
      = { opts.foldl (fun o f => f o) o with serializationType := t } := by
  rw [List.foldl_append]
  rfl

/-- C22. For every option list passed to `Call`: after the `Invoke` it makes, the
serialization type of the client is `msgpack`, whatever the caller's options
chose; the record is the one that the caller's options, applied in their given
order, produce, with the serialization type set to `msgpack` last and, when the
path parses, the service name and the method set from the path. -/
theorem C22_call_forces_msgpack (chain : Context → Options → ClientStream → Option Error)
    (c : defaultClient) (ctx : Context) (servicePath : String) (opts : List Opt) :
    (Call chain c ctx servicePath opts).client.opts.serializationType = "msgpack" ∧
      (Call chain c ctx servicePath opts).client.opts =
        (match utils.ParseServicePath servicePath with
          | .ok (svc, m) =>
            { opts.foldl (fun o f => f o) c.opts with
              serializationType := "msgpack", serviceName := svc, method := m }
          | .error _ =>
            { opts.foldl (fun o f => f o) c.opts with serializationType := "msgpack" }) := by
  have hopts : (Call chain c ctx servicePath opts).client.opts =
      (match utils.ParseServicePath servicePath with
        | .ok (svc, m) =>
          { opts.foldl (fun o f => f o) c.opts with
            serializationType := "msgpack", serviceName := svc, method := m }
        | .error _ =>
          { opts.foldl (fun o f => f o) c.opts with serializationType := "msgpack" }) := by
    unfold Call Invoke
    simp only [List.nil_append, foldl_serializationType, codec.MsgPack]
    rcases utils.ParseServicePath servicePath with e | ⟨svc, m⟩
    · rfl
    · rfl
  refine ⟨?_, hopts⟩
  rw [hopts]
  rcases utils.ParseServicePath servicePath with e | ⟨svc, m⟩
  · rfl
  · rfl

theorem C22_call_forces_msgpack_witness :
    (Call (fun _ _ _ => none) NewDefaultClient ⟨[], none⟩ "/hello.Greeter/SayHello"
        [WithTarget "127.0.0.1:8000", WithSerializationType "json",
          WithNetwork "tcp"]).client.opts.serializationType = "msgpack" :=
  (C22_call_forces_msgpack (fun _ _ _ => none) NewDefaultClient ⟨[], none⟩
    "/hello.Greeter/SayHello"
    [WithTarget "127.0.0.1:8000", WithSerializationType "json", WithNetwork "tcp"]).1

end client

end NovaRPC
